import Mathlib

/-!
Shallow embedding of the image quality analysis and scoring engine of the
Classify repository (src/src/analyzers/sharpnessAnalyzer.js,
src/src/analyzers/histogramAnalyzer.js, src/src/analyzers/compositionAnalyzer.js,
the scoring module and src/config/default.js), together with theorems settling
the frozen claims about it.

Modelling conventions:
* JavaScript numbers are embedded as exact rationals (`ℚ`); `Math.round x`
  becomes `⌊x + 1/2⌋` (JS rounds half-up), `Math.max/Math.min` become
  `max`/`min`.
* A JavaScript division whose denominator can be zero produces `NaN` or
  `±Infinity`; such divisions are embedded as `Option ℚ` (`none` = non-finite),
  and comparisons against `NaN` (which are always false in JS) as
  `Option`-aware boolean comparisons that return `false` on `none`.
* `x || d` on numbers (JS falsy test: `undefined`, `null`, `0`, `NaN` are
  falsy) is embedded by `jsOr` on `Option ℚ`.
* `Math.sqrt`, `Math.sin`, `Math.cos`, `Math.atan2` are real-valued, so the
  few functions that need their values (gradient-direction consistency,
  Sobel magnitudes, rule-of-thirds distances) are embedded over `ℝ`;
  wherever the code only compares a square root against a nonnegative bound
  or another square root, the embedding compares the squares, which is
  equivalent by monotonicity of `Real.sqrt`.
* Grayscale pixel buffers `(data, width, height)` with flat indexing
  `idx = y*width + x` are embedded as a function `ℕ → ℕ → ℤ` together with
  explicit `width`/`height` arguments; `data[idx ± 1]`/`data[idx ± width]`
  become shifts of the coordinates.
-/

namespace Classify

/-- JS `Math.round`: round half toward positive infinity. -/
def jsRound (q : ℚ) : ℤ := ⌊q + 1/2⌋

/-- Clamp a rational into `[lo, hi]`, as `Math.max(lo, Math.min(hi, q))`. -/
def clamp (lo hi q : ℚ) : ℚ := max lo (min hi q)

/-- JS division embedded with explicit non-finiteness: `none` models the NaN
or Infinity produced when the denominator is `0`. -/
def jsDiv (a b : ℚ) : Option ℚ := if b = 0 then none else some (a / b)

/-- JS `x || d` for a number `x` that may be `undefined`/`NaN` (`none`) or a
concrete value (`some v`, with `0` falsy). -/
def jsOr (x : Option ℚ) (d : ℚ) : ℚ :=
  match x with
  | none => d
  | some v => if v = 0 then d else v

/-- NaN-aware strict greater-than: any comparison with a non-finite value is
false in JS. -/
def optGt (x : Option ℚ) (c : ℚ) : Bool :=
  match x with
  | none => false
  | some v => decide (c < v)

/-- NaN-aware strict less-than. -/
def optLt (x : Option ℚ) (c : ℚ) : Bool :=
  match x with
  | none => false
  | some v => decide (v < c)

/-! ## Scoring engine (scoring module + src/config/default.js)

The scoring engine consumes the three analyzer results plus EXIF-derived
signals.  Only the fields the scoring module actually reads are modelled;
each input structure below is the shape of the corresponding analyzer
result restricted to those fields, and `Option` on a whole structure models
a missing (`undefined`) analysis.  The `message`/`suggestion` strings of
issues are presentational and read by no claim; issues are embedded with
their `type` and `severity` fields. -/

/-- Fields of the sharpness analyzer result read by the scoring engine. -/
structure SharpnessIn where
  overallScore : ℚ
  sharpestRegions : List String
  blurType : String
  blurSeverity : ℚ
  deriving DecidableEq

/-- Fields of the histogram analyzer result read by the scoring engine. -/
structure HistogramIn where
  score : ℚ
  zonesShadows : ℚ
  exposureAssessment : String
  highlightsClipped : ℚ
  highlightsSeverity : String
  shadowsClipped : ℚ
  dynamicRangePct : ℚ
  deriving DecidableEq

/-- Fields of the composition analyzer result read by the scoring engine. -/
structure CompositionIn where
  score : ℚ
  horizonDetected : Bool
  horizonLevel : Bool
  horizonTilt : ℚ
  deriving DecidableEq

/-- Fields of the EXIF data read by the scoring engine.  `iso = none` models
a missing ISO value (and `some 0` is falsy like in JS). -/
structure ExifIn where
  iso : Option ℚ
  focusContinuous : Bool
  deriving DecidableEq

/-- The `analyses` argument of `calculateScores`. -/
structure Analyses where
  exif : Option ExifIn
  histogram : Option HistogramIn
  sharpness : Option SharpnessIn
  composition : Option CompositionIn
  deriving DecidableEq

/-- Sharpness sub-score: engine score passthrough, rounded and clamped. -/
def calcSharpnessSub (s : Option SharpnessIn) : ℚ :=
  match s with
  | none => 50
  | some s => clamp 0 100 (jsRound (jsOr (some s.overallScore) 0) : ℚ)

/-- Exposure sub-score: `histogram.score || 50`. -/
def calcExposureSub (h : Option HistogramIn) : ℚ :=
  match h with
  | none => 50
  | some h => jsOr (some h.score) 50

/-- Focus-accuracy sub-score: base 70, 85 if the sharpest regions include the
center, 75 if any sharp region exists, minus 5 for continuous autofocus. -/
def calcFocusAccuracySub (s : Option SharpnessIn) (e : Option ExifIn) : ℚ :=
  match s with
  | none => 50
  | some s =>
    let base : ℚ :=
      if s.sharpestRegions.contains "center" then 85
      else if s.sharpestRegions ≠ [] then 75
      else 70
    let adj : ℚ := if (e.map ExifIn.focusContinuous).getD false then base - 5 else base
    clamp 0 100 adj

/-- Noise sub-score: ISO-banded lookup plus a pushed-shadows penalty. -/
def calcNoiseSub (e : Option ExifIn) (h : Option HistogramIn) : ℚ :=
  match e with
  | none => 80
  | some e =>
    match e.iso with
    | none => 80
    | some iso =>
      if iso = 0 then 80
      else
        let base : ℚ :=
          if iso ≤ 200 then 100
          else if iso ≤ 400 then 95
          else if iso ≤ 800 then 85
          else if iso ≤ 1600 then 75
          else if iso ≤ 3200 then 60
          else if iso ≤ 6400 then 45
          else if iso ≤ 12800 then 30
          else 15
        let pen : ℚ :=
          if (match h with
              | some h => decide (30 < h.zonesShadows)
              | none => false) && decide (1600 < iso)
          then base - 10 else base
        clamp 0 100 pen

/-- Composition sub-score: `composition?.score?.score || 60`. -/
def calcCompositionSub (c : Option CompositionIn) : ℚ :=
  match c with
  | none => 60
  | some c => jsOr (some c.score) 60

/-- Dynamic-range sub-score: `histogram?.dynamicRange?.percentage || 60`. -/
def calcDynamicRangeSub (h : Option HistogramIn) : ℚ :=
  match h with
  | none => 60
  | some h => jsOr (some h.dynamicRangePct) 60

/-- Horizon-level sub-score: `null` (`none`) when no horizon was detected. -/
def calcHorizonLevelSub (c : Option CompositionIn) : Option ℚ :=
  match c with
  | none => none
  | some c =>
    if c.horizonDetected then
      some (if c.horizonLevel then 100 else max 50 (100 - |c.horizonTilt| * 5))
    else none

/-- The `scores` object of `calculateScores`, as a map from sub-score name to
its (possibly `null`) value; unrecognized keys are `undefined` (`none`). -/
def scoreOf (a : Analyses) : String → Option ℚ := fun k =>
  if k = "sharpness" then some (calcSharpnessSub a.sharpness)
  else if k = "exposure" then some (calcExposureSub a.histogram)
  else if k = "focusAccuracy" then some (calcFocusAccuracySub a.sharpness a.exif)
  else if k = "composition" then some (calcCompositionSub a.composition)
  else if k = "noise" then some (calcNoiseSub a.exif a.histogram)
  else if k = "dynamicRange" then some (calcDynamicRangeSub a.histogram)
  else if k = "horizonLevel" then calcHorizonLevelSub a.composition
  else none

/-- Weight profile `general` from src/config/default.js. -/
def generalWeights : List (String × ℚ) :=
  [("sharpness", 1/4), ("focusAccuracy", 3/20), ("exposure", 1/4),
   ("composition", 3/20), ("noise", 1/10), ("dynamicRange", 1/10)]

/-- Weight profile `landscape` from src/config/default.js. -/
def landscapeWeights : List (String × ℚ) :=
  [("sharpness", 1/5), ("exposure", 1/4), ("composition", 1/4),
   ("dynamicRange", 3/20), ("horizonLevel", 1/10), ("noise", 1/20)]

/-- Weighted-average loop of `calculateScores`: a sub-score contributes to
numerator and denominator exactly when its key has a weight and its value is
neither `null` nor `undefined`; an empty (non-positive) weight total yields
overall score 0. -/
def calcOverall (w : List (String × ℚ)) (s : String → Option ℚ) : ℚ :=
  let acc := w.foldl
    (fun (acc : ℚ × ℚ) kv =>
      match s kv.1 with
      | some v => (acc.1 + v * kv.2, acc.2 + kv.2)
      | none => acc)
    (0, 0)
  if 0 < acc.2 then acc.1 / acc.2 else 0

/-- Classification thresholds from src/config/default.js. -/
def thresholdSelect : ℚ := 72

/-- Threshold for the `good` tier. -/
def thresholdGood : ℚ := 58

/-- Threshold for the `review` tier. -/
def thresholdReview : ℚ := 45

/-- Threshold for the `maybe` tier. -/
def thresholdMaybe : ℚ := 30

/-- Star rating 1-5 from the overall score: highest qualifying threshold wins. -/
def calculateStarRating (score : ℚ) : ℕ :=
  if thresholdSelect ≤ score then 5
  else if thresholdGood ≤ score then 4
  else if thresholdReview ≤ score then 3
  else if thresholdMaybe ≤ score then 2
  else 1

/-- Category name from the overall score via the same thresholds. -/
def thresholdCategory (score : ℚ) : String :=
  if thresholdSelect ≤ score then "select"
  else if thresholdGood ≤ score then "good"
  else if thresholdReview ≤ score then "review"
  else if thresholdMaybe ≤ score then "maybe"
  else "reject"

/-- Output folder per category, from src/config/default.js. -/
def folderOf (category : String) : String :=
  if category = "select" then "selects"
  else if category = "good" then "good"
  else if category = "review" then "review"
  else if category = "maybe" then "maybe"
  else "reject"

/-- Auto-reject severity/clip ceilings from src/config/default.js. -/
def arMotionBlurSeverity : ℚ := 17/20

/-- Defocus severity ceiling. -/
def arDefocusSeverity : ℚ := 17/20

/-- Highlight-clip percentage ceiling. -/
def arHighlightClip : ℚ := 25

/-- Shadow-clip percentage ceiling. -/
def arShadowClip : ℚ := 25

/-- The reason list accumulated by `checkAutoReject`, in source order. -/
def checkAutoReject (a : Analyses) : List String :=
  (if (match a.sharpness with
       | some s => s.blurType = "motion" && decide (arMotionBlurSeverity ≤ s.blurSeverity)
       | none => false)
   then ["severe-motion-blur"] else []) ++
  (if (match a.sharpness with
       | some s => s.blurType = "defocus" && decide (arDefocusSeverity ≤ s.blurSeverity)
       | none => false)
   then ["severely-out-of-focus"] else []) ++
  (if (match a.histogram with
       | some h => decide (arHighlightClip ≤ h.highlightsClipped)
       | none => false)
   then ["blown-highlights"] else []) ++
  (if (match a.histogram with
       | some h => decide (arShadowClip ≤ h.shadowsClipped)
       | none => false)
   then ["crushed-shadows"] else [])

/-- Result of `classifyImage` (the `strongest`/`weakest` aspect fields are
read by no claim and are omitted). -/
structure Classification where
  category : String
  folder : String
  autoReject : Option (List String)
  deriving DecidableEq

/-- Classify the image: threshold category, overridden to `reject` when any
auto-reject condition holds; `autoReject` is `null` when none holds. -/
def classifyImage (score : ℚ) (a : Analyses) : Classification :=
  let category := thresholdCategory score
  let reasons := checkAutoReject a
  let shouldReject := reasons ≠ []
  { category := if shouldReject then "reject" else category
    folder := folderOf (if shouldReject then "reject" else category)
    autoReject := if shouldReject then some reasons else none }

/-- An issue entry; the presentational `message`/`suggestion` strings are
read by no claim and are omitted. -/
structure Issue where
  type : String
  severity : String
  deriving DecidableEq

/-- Issue list generated from independent rules, in source order. -/
def generateIssuesList (scores : String → Option ℚ) (a : Analyses) : List Issue :=
  (if optLt (scores "sharpness") 60 then
     (match a.sharpness with
      | some s =>
        if s.blurType = "motion" then [⟨"sharpness", "high"⟩]
        else if s.blurType = "defocus" then [⟨"sharpness", "high"⟩]
        else [⟨"sharpness", "medium"⟩]
      | none => [⟨"sharpness", "medium"⟩])
   else []) ++
  (match a.histogram with
   | some h =>
     if h.exposureAssessment = "underexposed" then [⟨"exposure", "medium"⟩]
     else if h.exposureAssessment = "overexposed" then [⟨"exposure", "medium"⟩]
     else []
   | none => []) ++
  (match a.histogram with
   | some h =>
     if h.highlightsSeverity = "moderate" || h.highlightsSeverity = "severe" then
       [⟨"clipping", if h.highlightsSeverity = "severe" then "high" else "medium"⟩]
     else []
   | none => []) ++
  (match a.composition with
   | some c =>
     if c.horizonDetected && !c.horizonLevel && decide (2 < |c.horizonTilt|) then
       [⟨"composition", if 5 < |c.horizonTilt| then "medium" else "low"⟩]
     else []
   | none => []) ++
  (if optLt (scores "noise") 50 then [⟨"noise", "low"⟩] else [])

/-- Keeper probability: `overall/100` minus 0.15 per high-severity and 0.05
per medium-severity issue, rounded to 2 decimals then clamped to `[0,1]`
(the source clamps the rounded value). -/
def calculateKeeperProbability (score : ℚ) (issues : List Issue) : ℚ :=
  let p := score / 100
    - (issues.filter (fun i => i.severity = "high")).length * (3/20)
    - (issues.filter (fun i => i.severity = "medium")).length * (1/20)
  clamp 0 1 ((jsRound (p * 100) : ℚ) / 100)

/-- Result of `calculateScores` (sub-scores retrievable through `scoreOf`). -/
structure ScoreResult where
  overall : ℤ
  rating : ℕ
  classification : Classification
  issues : List Issue
  keeperProbability : ℚ
  mode : String
  deriving DecidableEq

/-- The active weight map: custom weights if given, else the mode's profile,
falling back to `general` (`portrait` is remapped to `general`). -/
def activeWeights (mode : String) (customWeights : Option (List (String × ℚ))) :
    List (String × ℚ) :=
  match customWeights with
  | some w => w
  | none =>
    let actualMode := if mode = "portrait" then "general" else mode
    if actualMode = "landscape" then landscapeWeights else generalWeights

/-- The unrounded overall weighted score of `calculateScores`. -/
def overallScoreQ (a : Analyses) (mode : String)
    (customWeights : Option (List (String × ℚ))) : ℚ :=
  calcOverall (activeWeights mode customWeights) (scoreOf a)

/-- Top-level `calculateScores`. -/
def calculateScores (a : Analyses) (mode : String)
    (customWeights : Option (List (String × ℚ))) : ScoreResult :=
  let overallScore := overallScoreQ a mode customWeights
  let issues := generateIssuesList (scoreOf a) a
  { overall := jsRound overallScore
    rating := calculateStarRating overallScore
    classification := classifyImage overallScore a
    issues := issues
    keeperProbability := calculateKeeperProbability overallScore issues
    mode := if mode = "portrait" then "general" else mode }

/-! ## Histogram analyzer (src/src/analyzers/histogramAnalyzer.js)

Only the luminance histogram and the exposure assessment are needed by the
claims; the RGB buffer handed to `computeHistogram` is embedded as a list of
RGB triples. -/

/-- An RGB pixel with 8-bit channel values. -/
structure RGBPix where
  r : ℤ
  g : ℤ
  b : ℤ
  deriving DecidableEq

/-- Perceived luminance `Math.round(0.299 R + 0.587 G + 0.114 B)`. -/
def luminance (p : RGBPix) : ℤ :=
  jsRound ((299/1000 : ℚ) * p.r + (587/1000 : ℚ) * p.g + (114/1000 : ℚ) * p.b)

/-- Normalized luminance histogram bucket `i`, as a percentage of the pixel
count (the source divides by `totalPixels`; an empty buffer never reaches
this in the pipeline, and the resulting `0/0` is kept as plain `0/0 = 0`
here because the claims only concern nonempty buffers via `jsDiv` below). -/
def lumHist (px : List RGBPix) (i : ℕ) : ℚ :=
  ((px.filter (fun p => luminance p = i)).length : ℚ) / px.length * 100

/-- Numerator of the luminance-weighted mean brightness. -/
def lumWeightedSum (px : List RGBPix) : ℚ :=
  ∑ i ∈ Finset.range 256, (i : ℚ) * lumHist px i

/-- Denominator of the luminance-weighted mean brightness. -/
def lumTotalWeight (px : List RGBPix) : ℚ :=
  ∑ i ∈ Finset.range 256, lumHist px i

/-- Luminance-weighted mean brightness `weightedSum / totalWeight`
(`none` when the total weight is zero, modelling the NaN the source
would produce). -/
def meanBrightnessOpt (px : List RGBPix) : Option ℚ :=
  jsDiv (lumWeightedSum px) (lumTotalWeight px)

/-- Exposure assessment label from the mean brightness, exactly the source's
`if` chain (all comparisons NaN-false). -/
def exposureAssessment (px : List RGBPix) : String :=
  let mb := meanBrightnessOpt px
  if optLt mb 80 then "underexposed"
  else if optGt mb 180 then "overexposed"
  else if (match mb with
           | some m => decide (100 ≤ m) && decide (m ≤ 160)
           | none => false) then "well-exposed"
  else if optLt mb 100 then "slightly-under"
  else "slightly-over"

/-- Modelled from the spec words of claim C3 as amended: the anchor bands
actually realized by the source (`<80`, `[80,100)`, `[100,160]`, `(160,180]`,
`>180`), for comparison with `exposureAssessment`. -/
def exposureBandOf (m : ℚ) : String :=
  if m < 80 then "underexposed"
  else if m < 100 then "slightly-under"
  else if m ≤ 160 then "well-exposed"
  else if m ≤ 180 then "slightly-over"
  else "overexposed"

/-! ## Composition analyzer (src/src/analyzers/compositionAnalyzer.js) -/

/-- A grayscale buffer: pixel value at `(x, y)`.  The flat JS indexing
`data[y*width + x]` is embedded by explicit coordinates; `width`/`height`
are passed alongside wherever the source passes them. -/
abbrev Gray := ℕ → ℕ → ℤ

/-- Sum of pixel values over the rectangle `[x1, x2) × [y1, y2)`. -/
def rectSum (f : Gray) (x1 y1 x2 y2 : ℕ) : ℚ :=
  ∑ p ∈ Finset.Ico x1 x2 ×ˢ Finset.Ico y1 y2, (f p.1 p.2 : ℚ)

/-- Average pixel intensity of a quadrant, 0 when the quadrant is empty
(the source guards `count > 0`). -/
def calculateQuadrantWeight (f : Gray) (x1 y1 x2 y2 : ℕ) : ℚ :=
  let n := (x2 - x1) * (y2 - y1)
  if n = 0 then 0 else rectSum f x1 y1 x2 y2 / n

/-- Result of `analyzeVisualBalance` (`none` in a numeric field models NaN). -/
structure BalanceResult where
  topLeft : ℚ
  topRight : ℚ
  bottomLeft : ℚ
  bottomRight : ℚ
  horizontal : Option ℤ
  vertical : Option ℤ
  overall : Option ℤ
  type : String
  deriving DecidableEq

/-- Quadrant visual balance.  The balance quotients divide by the summed
quadrant weights with no guard, so an all-zero image produces NaN (`none`),
and the NaN-false comparisons then classify it as `asymmetrical`. -/
def analyzeVisualBalance (f : Gray) (w h : ℕ) : BalanceResult :=
  let midX := w / 2
  let midY := h / 2
  let tl := calculateQuadrantWeight f 0 0 midX midY
  let tr := calculateQuadrantWeight f midX 0 w midY
  let bl := calculateQuadrantWeight f 0 midY midX h
  let br := calculateQuadrantWeight f midX midY w h
  let l := tl + bl
  let r := tr + br
  let t := tl + tr
  let b := bl + br
  let hb : Option ℚ := (jsDiv |l - r| (l + r)).map (fun q => 1 - q)
  let vb : Option ℚ := (jsDiv |t - b| (t + b)).map (fun q => 1 - q)
  let ty :=
    if optGt hb (4/5) && optGt vb (4/5) then "symmetrical"
    else if optGt hb (3/5) && optGt vb (3/5) then "balanced"
    else if optLt hb (2/5) || optLt vb (2/5) then "dynamic"
    else "asymmetrical"
  { topLeft := tl, topRight := tr, bottomLeft := bl, bottomRight := br
    horizontal := hb.map (fun q => jsRound (q * 100))
    vertical := vb.map (fun q => jsRound (q * 100))
    overall := match hb, vb with
               | some a, some b' => some (jsRound ((a + b') / 2 * 100))
               | _, _ => none
    type := ty }

/-- Result of `analyzeWeightDistribution`. -/
structure WeightDistResult where
  centerX : Option ℤ
  centerY : Option ℤ
  offsetX : Option ℤ
  offsetY : Option ℤ
  centered : Bool
  deriving DecidableEq

/-- Center of visual mass: intensity-weighted centroid normalized by the
image size.  The division by the total intensity is unguarded, so an
all-zero image produces NaN (`none`) in every numeric field and `centered`
is decided by NaN-false comparisons. -/
def analyzeWeightDistribution (f : Gray) (w h : ℕ) : WeightDistResult :=
  let pts := Finset.range w ×ˢ Finset.range h
  let sumX : ℚ := ∑ p ∈ pts, (p.1 : ℚ) * f p.1 p.2
  let sumY : ℚ := ∑ p ∈ pts, (p.2 : ℚ) * f p.1 p.2
  let tw : ℚ := ∑ p ∈ pts, (f p.1 p.2 : ℚ)
  let cx : Option ℚ := (jsDiv sumX tw).map (fun q => q / w)
  let cy : Option ℚ := (jsDiv sumY tw).map (fun q => q / h)
  let ox : Option ℚ := cx.map (fun q => |q - 1/2|)
  let oy : Option ℚ := cy.map (fun q => |q - 1/2|)
  { centerX := cx.map (fun q => jsRound (q * 100))
    centerY := cy.map (fun q => jsRound (q * 100))
    offsetX := ox.map (fun q => jsRound (q * 100))
    offsetY := oy.map (fun q => jsRound (q * 100))
    centered := optLt ox (1/10) && optLt oy (1/10) }

/-- Result of `analyzeSymmetry`. -/
structure SymmetryResult where
  horizontal : Option ℤ
  vertical : Option ℤ
  overall : Option ℤ
  type : String
  deriving DecidableEq

/-- Mirror-difference symmetry.  The JS loop bound `x < width/2` on the
integer `x` is `x < ⌈width/2⌉`; the divisor `count*255` is zero only for a
zero-sized buffer (kept as `none`). -/
def analyzeSymmetry (f : Gray) (w h : ℕ) : SymmetryResult :=
  let hCols := (w + 1) / 2
  let vRows := (h + 1) / 2
  let hDiff : ℚ := ∑ p ∈ Finset.range hCols ×ˢ Finset.range h,
    (|f p.1 p.2 - f (w - 1 - p.1) p.2| : ℚ)
  let vDiff : ℚ := ∑ p ∈ Finset.range w ×ˢ Finset.range vRows,
    (|f p.1 p.2 - f p.1 (h - 1 - p.2)| : ℚ)
  let hs : Option ℚ := (jsDiv hDiff ((hCols * h : ℕ) * 255)).map (fun q => 1 - q)
  let vs : Option ℚ := (jsDiv vDiff ((w * vRows : ℕ) * 255)).map (fun q => 1 - q)
  { horizontal := hs.map (fun q => jsRound (q * 100))
    vertical := vs.map (fun q => jsRound (q * 100))
    overall := match hs, vs with
               | some a, some b => some (jsRound ((a + b) / 2 * 100))
               | _, _ => none
    type :=
      if optGt hs (4/5) then "horizontally-symmetric"
      else if optGt vs (4/5) then "vertically-symmetric"
      else if optGt hs (3/5) && optGt vs (3/5) then "balanced"
      else "asymmetric" }

/-- An interest point (pixel of maximal local contrast in its 30x30 block). -/
structure IPoint where
  x : ℕ
  y : ℕ
  strength : ℤ
  deriving DecidableEq

/-- Scan one 30x30 block for the pixel of maximal contrast
`|c - right| + |c - below|`, in the source's `y`-outer `x`-inner order with
strict improvement (ties keep the earlier pixel). -/
def blockBest (f : Gray) (w h bx bY : ℕ) : ℤ × ℕ × ℕ :=
  let ys := List.range' bY (min (bY + 30) (h - 1) - bY)
  let xs := List.range' bx (min (bx + 30) (w - 1) - bx)
  ys.foldl (fun acc y => xs.foldl (fun acc x =>
      let c := |f x y - f (x + 1) y| + |f x y - f x (y + 1)|
      if acc.1 < c then (c, x, y) else acc) acc)
    (0, bx, bY)

/-- Interest points: best contrast per block, kept when above the fixed
threshold 50, sorted by descending strength, top 10. -/
def findInterestPoints (f : Gray) (w h : ℕ) : List IPoint :=
  let bys := (List.range ((h + 29) / 30)).map (fun i => i * 30)
  let bxs := (List.range ((w + 29) / 30)).map (fun i => i * 30)
  let pts := bys.flatMap (fun bY => bxs.flatMap (fun bx =>
    let b := blockBest f w h bx bY
    if 50 < b.1 then [⟨b.2.1, b.2.2, b.1⟩] else []))
  (pts.mergeSort (fun a b => decide (b.strength ≤ a.strength))).take 10

/-- The four rule-of-thirds power points. -/
def powerPoints (w h : ℕ) : List (ℚ × ℚ) :=
  [((w : ℚ) / 3, (h : ℚ) / 3), (2 * w / 3, (h : ℚ) / 3),
   ((w : ℚ) / 3, 2 * h / 3), (2 * w / 3, 2 * h / 3)]

/-- Squared distance from an interest point to a power point. -/
def distSq (ix iy : ℕ) (p : ℚ × ℚ) : ℚ := ((ix : ℚ) - p.1)^2 + ((iy : ℚ) - p.2)^2

/-- Minimal squared interest-point-to-power-point distance.  The source
minimizes the Euclidean distances starting from `Infinity`; since
`Real.sqrt` is strictly monotone on squares, tracking the squared distances
with the same strict-improvement update is equivalent, and `none` models the
untouched `Infinity`. -/
def minDistSq (f : Gray) (w h : ℕ) : Option ℚ :=
  (findInterestPoints f w h).foldl (fun acc ip =>
    (powerPoints w h).foldl (fun acc pp =>
      match acc with
      | none => some (distSq ip.x ip.y pp)
      | some m => if distSq ip.x ip.y pp < m then some (distSq ip.x ip.y pp) else acc)
    acc) none

/-- JS `Math.round` on a real value. -/
noncomputable def jsRoundR (x : ℝ) : ℤ := ⌊x + 1/2⌋

/-- The reported rule-of-thirds `alignment` (0-100): with no interest point
the minimum distance stays `Infinity`, `1 - Infinity/maxDist = -Infinity`,
and `Math.max(0, ·)` yields exactly 0. -/
noncomputable def ruleOfThirdsAlignment (f : Gray) (w h : ℕ) : ℤ :=
  match minDistSq f w h with
  | none => 0
  | some d =>
    jsRoundR (100 * max 0 (1 - Real.sqrt (d : ℝ) /
      Real.sqrt (((w : ℝ) / 6)^2 + ((h : ℝ) / 6)^2)))

/-! ## Sharpness analyzer (src/src/analyzers/sharpnessAnalyzer.js) -/

/-- Interior pixels (1-pixel border excluded), the domain of every
convolution loop `for y in [1, h-2], x in [1, w-2]`. -/
def interior (w h : ℕ) : Finset (ℕ × ℕ) :=
  Finset.Ico 1 (w - 1) ×ˢ Finset.Ico 1 (h - 1)

/-- Discrete 4-neighbor Laplacian `top + left - 4*center + right + bottom`. -/
def lap (f : Gray) (x y : ℕ) : ℤ :=
  f x (y - 1) + f (x - 1) y - 4 * f x y + f (x + 1) y + f x (y + 1)

/-- Variance of the absolute Laplacian over interior pixels; the division by
the interior pixel count is unguarded, so a buffer narrower or shorter than
3 pixels produces NaN (`none`). -/
def calculateLaplacianVariance (f : Gray) (w h : ℕ) : Option ℚ :=
  let n := (interior w h).card
  let s : ℚ := ∑ p ∈ interior w h, (|lap f p.1 p.2| : ℚ)
  let s2 : ℚ := ∑ p ∈ interior w h, (|lap f p.1 p.2| : ℚ)^2
  if n = 0 then none else some (s2 / n - (s / n)^2)

/-- Average absolute horizontal gradient `|data[idx+1] - data[idx-1]|` over
interior pixels (unguarded division, as in the source). -/
def dirGradH (f : Gray) (w h : ℕ) : Option ℚ :=
  jsDiv (∑ p ∈ interior w h, (|f (p.1 + 1) p.2 - f (p.1 - 1) p.2| : ℚ))
    ((interior w h).card)

/-- Average absolute vertical gradient `|data[idx+width] - data[idx-width]|`. -/
def dirGradV (f : Gray) (w h : ℕ) : Option ℚ :=
  jsDiv (∑ p ∈ interior w h, (|f p.1 (p.2 + 1) - f p.1 (p.2 - 1)| : ℚ))
    ((interior w h).card)

/-- Sobel X response at an interior pixel. -/
def sobelGx (f : Gray) (x y : ℕ) : ℤ :=
  -f (x - 1) (y - 1) + f (x + 1) (y - 1)
  - 2 * f (x - 1) y + 2 * f (x + 1) y
  - f (x - 1) (y + 1) + f (x + 1) (y + 1)

/-- Sobel Y response at an interior pixel. -/
def sobelGy (f : Gray) (x y : ℕ) : ℤ :=
  -f (x - 1) (y - 1) - 2 * f x (y - 1) - f (x + 1) (y - 1)
  + f (x - 1) (y + 1) + 2 * f x (y + 1) + f (x + 1) (y + 1)

/-- Average Sobel edge magnitude `sqrt(gx^2 + gy^2)` over interior pixels
(`none` models the NaN of an empty interior). -/
noncomputable def avgEdgeStrength (f : Gray) (w h : ℕ) : Option ℝ :=
  if (interior w h).card = 0 then none
  else some ((∑ p ∈ interior w h,
      Real.sqrt ((sobelGx f p.1 p.2 : ℝ)^2 + (sobelGy f p.1 p.2 : ℝ)^2))
    / (interior w h).card)

/-- The unit vector `(cos θ, sin θ)` for `θ = Math.atan2(gy, gx)`: this is
exactly `(gx, gy)/‖(gx, gy)‖` when the gradient is nonzero, and `θ = 0`
(vector `(1, 0)`) when `atan2(0, 0) = 0`. -/
noncomputable def atanVec (gx gy : ℤ) : ℝ × ℝ :=
  if gx = 0 ∧ gy = 0 then (1, 0)
  else ((gx : ℝ) / Real.sqrt ((gx : ℝ)^2 + (gy : ℝ)^2),
        (gy : ℝ) / Real.sqrt ((gx : ℝ)^2 + (gy : ℝ)^2))

/-- Central-difference horizontal gradient at a sampled point. -/
def sampleGx (f : Gray) (p : ℕ × ℕ) : ℤ := f (p.1 + 1) p.2 - f (p.1 - 1) p.2

/-- Central-difference vertical gradient at a sampled point. -/
def sampleGy (f : Gray) (p : ℕ × ℕ) : ℤ := f p.1 (p.2 + 1) - f p.1 (p.2 - 1)

/-- Number of pseudo-random sample points used by the consistency check. -/
def sampleCount : ℕ := 20

/-- Gradient-direction consistency: the source samples `sampleCount`
unseeded-random interior points, accumulates `sin`/`cos` of each gradient
angle in `samples` order, and returns the resultant length
`R = sqrt(sumSin² + sumCos²) / sampleCount`.  The random point sequence is
made an explicit argument, which is the only way the sampler's
nondeterminism enters the engine. -/
noncomputable def analyzeGradientConsistency (f : Gray) (samples : List (ℕ × ℕ)) : ℝ :=
  let sumCos := (samples.map (fun p => (atanVec (sampleGx f p) (sampleGy f p)).1)).sum
  let sumSin := (samples.map (fun p => (atanVec (sampleGx f p) (sampleGy f p)).2)).sum
  Real.sqrt (sumSin^2 + sumCos^2) / (sampleCount : ℝ)

/-- Sample-point sequences the source's sampler can produce: `sampleCount`
points with `x ∈ [1, w-2]`, `y ∈ [1, h-2]`. -/
def validSamples (w h : ℕ) (s : List (ℕ × ℕ)) : Prop :=
  s.length = sampleCount ∧
  ∀ p ∈ s, 1 ≤ p.1 ∧ p.1 ≤ w - 2 ∧ 1 ≤ p.2 ∧ p.2 ≤ h - 2

/-- Blur classification result (the rounded `metrics` sub-record is
presentational and read by no claim). -/
structure BlurResult where
  type : String
  severity : ℚ
  direction : Option String

/-- Core of `detectBlurType`, with the gradient-direction consistency `R`
as an explicit parameter (the source computes it once, then only compares
it).  `sharpQ` is read only inside branches whose guards force
`overallSharpness` to be finite. -/
noncomputable def detectBlurTypeR (f : Gray) (w h : ℕ)
    (overallSharpness : Option ℚ) (R : ℝ) : BlurResult :=
  let hG := dirGradH f w h
  let vG := dirGradV f w h
  let ratio : Option ℚ := hG.map (fun x => x / jsOr vG 1)
  let avg : Option ℚ :=
    match hG, vG with
    | some a, some b => some ((a + b) / 2)
    | _, _ => none
  let sharpQ := overallSharpness.getD 0
  if optGt overallSharpness 100 || optGt avg 20 then
    ⟨"none", 0, none⟩
  else if optGt (ratio.map (fun q => |q - 1|)) (1/2)
      && optLt overallSharpness 50 && optLt avg 15 then
    ⟨"motion", clamp 0 1 (1 - sharpQ / 50),
     some (if optGt ratio 1 then "horizontal" else "vertical")⟩
  else if optLt overallSharpness 40 ∧ (9/10 : ℝ) < R ∧ optLt avg 12 then
    ⟨"defocus", clamp 0 1 (1 - sharpQ / 40), none⟩
  else if optLt overallSharpness 80 then
    ⟨"soft", 1/5, none⟩
  else
    ⟨"none", 0, none⟩

/-- Blur classification of a buffer given the sampled points of the
consistency check. -/
noncomputable def detectBlurType (f : Gray) (w h : ℕ)
    (overallSharpness : Option ℚ) (samples : List (ℕ × ℕ)) : BlurResult :=
  detectBlurTypeR f w h overallSharpness (analyzeGradientConsistency f samples)

/-- Blur inputs of `calculateSharpnessScore`. -/
structure BlurIn where
  type : String
  severity : ℚ
  deriving DecidableEq

/-- Edge-statistics inputs of `calculateSharpnessScore`
(`strongEdgeShare` embeds the source's strong-edge percentage field). -/
structure EdgeIn where
  averageStrength : ℚ
  strongEdgeShare : ℚ
  deriving DecidableEq

/-- Piecewise-linear edge-strength base of the sharpness score (the first
`if` ladder of `calculateSharpnessScore`). -/
def baseEdgeScore (es : ℚ) : ℚ :=
  if 80 < es then 90 + min 10 ((es - 80) / 4)
  else if 60 < es then 78 + ((es - 60) / 20) * 12
  else if 40 < es then 65 + ((es - 40) / 20) * 13
  else if 25 < es then 52 + ((es - 25) / 15) * 13
  else if 15 < es then 40 + ((es - 15) / 10) * 12
  else 30 + (es / 15) * 10

/-- Strong-edge-share bonus applied to the running score. -/
def strongEdgeBonus (score ser : ℚ) : ℚ :=
  if 5 < ser then score + 5 else if 2 < ser then score + 3 else score

/-- High-Laplacian-variance bonus applied to the running score. -/
def varianceBonus (score v : ℚ) : ℚ :=
  if 500 < v then score + 3 else if 300 < v then score + 2 else score

/-- Blur penalty applied to the running score: only `motion`/`defocus` with
severity strictly above 0.6 are penalized. -/
def blurPenalty (score : ℚ) (blur : BlurIn) : ℚ :=
  if blur.type = "motion" ∧ 3/5 < blur.severity then
    score - (blur.severity - 3/5) * 25
  else if blur.type = "defocus" ∧ 3/5 < blur.severity then
    score - (blur.severity - 3/5) * 20
  else score

/-- Center-focus bonus applied to the running score. -/
def centerBonus (score : ℚ) (focusPosition : String) : ℚ :=
  if focusPosition = "center" then score + 2 else score

/-- Final sharpness score before rounding and clamping: the source mutates a
single `score` variable through the edge-strength ladder, the two bonuses,
the blur penalty and the center bonus in this order. -/
def rawSharpnessScore (overallSharpness : ℚ) (blur : BlurIn) (edges : EdgeIn)
    (focusPosition : String) : ℚ :=
  centerBonus
    (blurPenalty
      (varianceBonus
        (strongEdgeBonus (baseEdgeScore (jsOr (some edges.averageStrength) 0))
          (jsOr (some edges.strongEdgeShare) 0))
        overallSharpness)
      blur)
    focusPosition

/-- Final 0-100 sharpness score `Math.max(0, Math.min(100, Math.round(s)))`. -/
def calculateSharpnessScore (overallSharpness : ℚ) (blur : BlurIn)
    (edges : EdgeIn) (focusPosition : String) : ℚ :=
  max 0 (min 100 (jsRound (rawSharpnessScore overallSharpness blur edges focusPosition) : ℚ))

/-! ## Concrete inputs used by witnesses and counterexamples -/

/-- The constant-valued grayscale buffer. -/
def uniformImg (v : ℤ) : Gray := fun _ _ => v

/-- A 4x4 buffer whose two interior points `(1,1)` and `(2,2)` carry exactly
opposite horizontal gradients, with low sharpness and balanced directional
gradients, so that the blur classification depends on which points the
consistency check samples. -/
def imgC2 : Gray := fun x y =>
  if (x, y) ∈ [(1, 0), (2, 1), (0, 2), (1, 2), (2, 2), (1, 3), (2, 3)] then 6 else 0

/-- Twenty samples all at the interior point `(1,1)` of `imgC2`. -/
def samplesA : List (ℕ × ℕ) := List.replicate 20 (1, 1)

/-- Ten samples at `(1,1)` and ten at `(2,2)` of `imgC2` (opposite gradient
directions). -/
def samplesB : List (ℕ × ℕ) := List.replicate 10 (1, 1) ++ List.replicate 10 (2, 2)

/-- Twenty samples all at the interior point `(1,2)` of `imgC2` (vertical
gradient direction). -/
def samplesC : List (ℕ × ℕ) := List.replicate 20 (1, 2)

/-- A scoring-engine input with near-perfect sub-scores but severe motion
blur (severity 0.9 at ceiling 0.85). -/
def exAnalyses : Analyses :=
  { exif := some ⟨some 100, false⟩
    histogram := some ⟨100, 10, "well-exposed", 0, "none", 0, 100⟩
    sharpness := some ⟨100, ["center"], "motion", 9/10⟩
    composition := some ⟨100, false, false, 0⟩ }

/-- A single mid-gray RGB pixel whose luminance is exactly 180. -/
def px180 : List RGBPix := [⟨180, 180, 180⟩]

/-- A single RGB pixel whose luminance is exactly 100. -/
def px100 : List RGBPix := [⟨100, 100, 100⟩]

/-! ## Specification-side predicates and characterizations -/

/-- Numerator of the weighted average restricted to the sub-scores that
actually contribute: keys that carry a weight and whose value is present. -/
def contribNum (w : List (String × ℚ)) (s : String → Option ℚ) : ℚ :=
  ((w.filter (fun kv => (s kv.1).isSome)).map (fun kv => (s kv.1).getD 0 * kv.2)).sum

/-- Denominator of the weighted average restricted to the contributing
sub-scores. -/
def contribDen (w : List (String × ℚ)) (s : String → Option ℚ) : ℚ :=
  ((w.filter (fun kv => (s kv.1).isSome)).map Prod.snd).sum

/-- The auto-reject condition as the claim states it: motion blur at or above
the 0.85 ceiling, defocus at or above the 0.85 ceiling, highlight clipping at
or above 25%, or shadow clipping at or above 25%. -/
def autoRejectHolds (a : Analyses) : Prop :=
  (a.sharpness.map SharpnessIn.blurType = some "motion" ∧
    arMotionBlurSeverity ≤ (a.sharpness.map SharpnessIn.blurSeverity).getD 0) ∨
  (a.sharpness.map SharpnessIn.blurType = some "defocus" ∧
    arDefocusSeverity ≤ (a.sharpness.map SharpnessIn.blurSeverity).getD 0) ∨
  arHighlightClip ≤ (a.histogram.map HistogramIn.highlightsClipped).getD 0 ∨
  arShadowClip ≤ (a.histogram.map HistogramIn.shadowsClipped).getD 0

/-- Rounding to two decimal places, `Math.round(q*100)/100`. -/
def round2 (q : ℚ) : ℚ := (jsRound (q * 100) : ℚ) / 100

/-- Channel values of every pixel are 8-bit. -/
def validRGB (px : List RGBPix) : Prop :=
  ∀ p ∈ px, (0 ≤ p.r ∧ p.r ≤ 255) ∧ (0 ≤ p.g ∧ p.g ≤ 255) ∧ (0 ≤ p.b ∧ p.b ≤ 255)


/-! ## Theorems -/

theorem calcOverall_foldl (w : List (String × ℚ)) (s : String → Option ℚ) (a b : ℚ) :
    w.foldl (fun acc kv =>
      match s kv.1 with
      | some v => (acc.1 + v * kv.2, acc.2 + kv.2)
      | none => acc) (a, b)
    = (a + contribNum w s, b + contribDen w s) := by
  induction w generalizing a b with
  | nil => simp [contribNum, contribDen]
  | cons kv t ih =>
    cases hkv : s kv.1 with
    | none =>
      simp only [List.foldl_cons, hkv]
      rw [ih]
      simp [contribNum, contribDen, List.filter_cons, hkv]
    | some v =>
      simp only [List.foldl_cons, hkv]
      rw [ih]
      simp only [contribNum, contribDen, List.filter_cons, hkv, Option.isSome_some,
        if_true, List.map_cons, List.sum_cons, Option.getD_some, Prod.mk.injEq]
      constructor <;> ring

theorem calcOverall_eq (w : List (String × ℚ)) (s : String → Option ℚ) :
    calcOverall w s =
      if 0 < contribDen w s then contribNum w s / contribDen w s else 0 := by
  rw [calcOverall, calcOverall_foldl]
  simp

theorem contribNum_cons (kv : String × ℚ) (t : List (String × ℚ)) (s : String → Option ℚ) :
    contribNum (kv :: t) s =
      match s kv.1 with
      | some v => v * kv.2 + contribNum t s
      | none => contribNum t s := by
  cases hkv : s kv.1 <;> simp [contribNum, List.filter_cons, hkv]

theorem contribDen_cons (kv : String × ℚ) (t : List (String × ℚ)) (s : String → Option ℚ) :
    contribDen (kv :: t) s =
      match s kv.1 with
      | some _ => kv.2 + contribDen t s
      | none => contribDen t s := by
  cases hkv : s kv.1 <;> simp [contribDen, List.filter_cons, hkv]

theorem contrib_congr (w : List (String × ℚ)) (s₁ s₂ : String → Option ℚ)
    (h : ∀ kv ∈ w, s₁ kv.1 = s₂ kv.1) :
    contribNum w s₁ = contribNum w s₂ ∧ contribDen w s₁ = contribDen w s₂ := by
  induction w with
  | nil => simp [contribNum, contribDen]
  | cons kv t ih =>
    have hkv := h kv (List.mem_cons_self kv t)
    have ht := ih (fun x hx => h x (List.mem_cons_of_mem kv hx))
    rw [contribNum_cons, contribNum_cons, contribDen_cons, contribDen_cons, hkv,
      ht.1, ht.2]
    exact ⟨rfl, rfl⟩

theorem calcOverall_congr (w : List (String × ℚ)) (s₁ s₂ : String → Option ℚ)
    (h : ∀ kv ∈ w, s₁ kv.1 = s₂ kv.1) :
    calcOverall w s₁ = calcOverall w s₂ := by
  rw [calcOverall_eq, calcOverall_eq, (contrib_congr w s₁ s₂ h).1,
    (contrib_congr w s₁ s₂ h).2]

theorem contrib_drop (w : List (String × ℚ)) (s : String → Option ℚ) (k : String)
    (hk : s k = none) :
    contribNum (w.filter (fun kv => kv.1 ≠ k)) s = contribNum w s ∧
    contribDen (w.filter (fun kv => kv.1 ≠ k)) s = contribDen w s := by
  induction w with
  | nil => simp
  | cons kv t ih =>
    by_cases hkk : kv.1 = k
    · have hfil : (kv :: t).filter (fun kv => kv.1 ≠ k) = t.filter (fun kv => kv.1 ≠ k) := by
        simp [List.filter_cons, hkk]
      rw [hfil, contribNum_cons, contribDen_cons, hkk, hk]
      exact ih
    · have hfil : (kv :: t).filter (fun kv => kv.1 ≠ k)
          = kv :: t.filter (fun kv => kv.1 ≠ k) := by
        simp [List.filter_cons, hkk]
      rw [hfil, contribNum_cons, contribNum_cons, contribDen_cons, contribDen_cons]
      cases hkv : s kv.1 with
      | none =>
        simp only
        exact ih
      | some v =>
        simp only
        rw [ih.1, ih.2]
        exact ⟨rfl, rfl⟩

theorem calcOverall_drop_none_key (w : List (String × ℚ)) (s : String → Option ℚ)
    (k : String) (hk : s k = none) :
    calcOverall w s = calcOverall (w.filter (fun kv => kv.1 ≠ k)) s := by
  rw [calcOverall_eq, calcOverall_eq, (contrib_drop w s k hk).1, (contrib_drop w s k hk).2]

theorem contrib_bounds (w : List (String × ℚ)) (s : String → Option ℚ)
    (hw : ∀ kv ∈ w, 0 ≤ kv.2) (hs : ∀ k v, s k = some v → 0 ≤ v ∧ v ≤ 100) :
    0 ≤ contribDen w s ∧ 0 ≤ contribNum w s ∧ contribNum w s ≤ 100 * contribDen w s := by
  induction w with
  | nil => simp [contribNum, contribDen]
  | cons kv t ih =>
    have hkv := hw kv (List.mem_cons_self kv t)
    have ht := ih (fun x hx => hw x (List.mem_cons_of_mem kv hx))
    rw [contribNum_cons, contribDen_cons]
    cases hsv : s kv.1 with
    | none =>
      simp only
      exact ht
    | some v =>
      have hv := hs kv.1 v hsv
      simp only
      refine ⟨add_nonneg hkv ht.1, add_nonneg (mul_nonneg hv.1 hkv) ht.2.1, ?_⟩
      have h1 : v * kv.2 ≤ 100 * kv.2 := mul_le_mul_of_nonneg_right hv.2 hkv
      have h2 := ht.2.2
      ring_nf
      linarith

theorem calcOverall_bounds (w : List (String × ℚ)) (s : String → Option ℚ)
    (hw : ∀ kv ∈ w, 0 ≤ kv.2) (hs : ∀ k v, s k = some v → 0 ≤ v ∧ v ≤ 100) :
    0 ≤ calcOverall w s ∧ calcOverall w s ≤ 100 := by
  rw [calcOverall_eq]
  rcases contrib_bounds w s hw hs with ⟨hd, hn, hnd⟩
  split_ifs with h
  · refine ⟨by positivity, ?_⟩
    rw [div_le_iff₀ h]
    linarith
  · norm_num

theorem jsRound_mono {q r : ℚ} (h : q ≤ r) : jsRound q ≤ jsRound r :=
  Int.floor_le_floor (by linarith)

theorem le_clamp (lo hi q : ℚ) : lo ≤ clamp lo hi q := le_max_left _ _

theorem clamp_le {lo hi : ℚ} (q : ℚ) (h : lo ≤ hi) : clamp lo hi q ≤ hi :=
  max_le h (min_le_left _ _)

theorem clamp_mem {lo hi : ℚ} (q : ℚ) (h : lo ≤ hi) :
    lo ≤ clamp lo hi q ∧ clamp lo hi q ≤ hi :=
  ⟨le_max_left _ _, max_le h (min_le_left _ _)⟩

theorem jsOr_mem {v d lo hi : ℚ} (hv : lo ≤ v ∧ v ≤ hi) (hd : lo ≤ d ∧ d ≤ hi) :
    lo ≤ jsOr (some v) d ∧ jsOr (some v) d ≤ hi := by
  rw [jsOr]
  split_ifs <;> simp [hv, hd]

theorem scoreOf_bounds (a : Analyses)
    (hh : ∀ h, a.histogram = some h →
      (0 ≤ h.score ∧ h.score ≤ 100) ∧ (0 ≤ h.dynamicRangePct ∧ h.dynamicRangePct ≤ 100))
    (hc : ∀ c, a.composition = some c → 0 ≤ c.score ∧ c.score ≤ 100) :
    ∀ k v, scoreOf a k = some v → 0 ≤ v ∧ v ≤ 100 := by
  intro k v hkv
  rw [scoreOf] at hkv
  split_ifs at hkv
  · -- sharpness
    cases hkv
    simp only [calcSharpnessSub]
    cases a.sharpness with
    | none => norm_num
    | some s => exact clamp_mem _ (by norm_num)
  · -- exposure
    cases hkv
    simp only [calcExposureSub]
    cases ha : a.histogram with
    | none => norm_num
    | some h => exact jsOr_mem ((hh h ha).1) (by norm_num)
  · -- focusAccuracy
    cases hkv
    simp only [calcFocusAccuracySub]
    cases a.sharpness with
    | none => norm_num
    | some s => exact clamp_mem _ (by norm_num)
  · -- composition
    cases hkv
    simp only [calcCompositionSub]
    cases ha : a.composition with
    | none => norm_num
    | some c => exact jsOr_mem (hc c ha) (by norm_num)
  · -- noise
    cases hkv
    simp only [calcNoiseSub]
    cases a.exif with
    | none => norm_num
    | some e =>
      simp only
      cases e.iso with
      | none => norm_num
      | some iso =>
        simp only
        by_cases h0 : iso = 0
        · rw [if_pos h0]
          norm_num
        · rw [if_neg h0]
          exact clamp_mem _ (by norm_num)
  · -- dynamicRange
    cases hkv
    simp only [calcDynamicRangeSub]
    cases ha : a.histogram with
    | none => norm_num
    | some h => exact jsOr_mem ((hh h ha).2) (by norm_num)
  · -- horizonLevel
    simp only [calcHorizonLevelSub] at hkv
    cases ha : a.composition with
    | none =>
      rw [ha] at hkv
      exact absurd hkv (by simp)
    | some c =>
      rw [ha] at hkv
      simp only at hkv
      split_ifs at hkv with hd hl
      · cases hkv
        norm_num
      · cases hkv
        refine ⟨le_trans (by norm_num) (le_max_left _ _), ?_⟩
        apply max_le (by norm_num)
        have := abs_nonneg c.horizonTilt
        linarith

theorem calculateStarRating_range (q : ℚ) :
    1 ≤ calculateStarRating q ∧ calculateStarRating q ≤ 5 := by
  rw [calculateStarRating]
  split_ifs <;> omega

theorem calculateStarRating_mono {q r : ℚ} (h : q ≤ r) :
    calculateStarRating q ≤ calculateStarRating r := by
  rw [calculateStarRating, calculateStarRating, thresholdSelect, thresholdGood,
    thresholdReview, thresholdMaybe]
  split_ifs <;> first | omega | (exfalso; linarith)

theorem jsRound_eval {q : ℚ} {z : ℤ} (h1 : (z : ℚ) ≤ q + 1/2) (h2 : q + 1/2 < z + 1) :
    jsRound q = z := by
  rw [jsRound]
  exact Int.floor_eq_iff.mpr ⟨h1, by exact_mod_cast h2⟩

theorem jsRound_100 : jsRound (100 : ℚ) = 100 := jsRound_eval (by norm_num) (by norm_num)

theorem jsRound_0 : jsRound (0 : ℚ) = 0 := jsRound_eval (by norm_num) (by norm_num)

theorem jsRound_in_range {q : ℚ} (h0 : 0 ≤ q) (h1 : q ≤ 100) :
    0 ≤ jsRound q ∧ jsRound q ≤ 100 := by
  constructor
  · rw [jsRound]
    exact Int.le_floor.mpr (by push_cast; linarith)
  · rw [jsRound]
    have : ⌊q + 1/2⌋ < 101 := Int.floor_lt.mpr (by push_cast; linarith)
    omega

/-- Claim C6: a sub-score contributes to numerator and denominator of the
overall weighted average exactly when its key has a weight in the active map
and its value is present; a key without a weight (focusAccuracy under the
landscape profile) or with a null value (horizonLevel) is excluded from both,
and an empty contribution set yields overall 0. -/
theorem overall_weighted_average_inclusion (w : List (String × ℚ)) (s : String → Option ℚ) :
    (calcOverall w s =
      if 0 < contribDen w s then contribNum w s / contribDen w s else 0)
    ∧ (∀ v₁ v₂ : Option ℚ,
        calcOverall landscapeWeights (fun k => if k = "focusAccuracy" then v₁ else s k)
          = calcOverall landscapeWeights (fun k => if k = "focusAccuracy" then v₂ else s k))
    ∧ (s "horizonLevel" = none →
        calcOverall w s = calcOverall (w.filter (fun kv => kv.1 ≠ "horizonLevel")) s)
    ∧ calcOverall [] s = 0 := by
  refine ⟨calcOverall_eq w s, ?_, calcOverall_drop_none_key w s _, by simp [calcOverall]⟩
  intro v₁ v₂
  apply calcOverall_congr
  intro kv hkv
  have hne : kv.1 ≠ "focusAccuracy" := by
    simp only [landscapeWeights, List.mem_cons, List.not_mem_nil, or_false] at hkv
    rcases hkv with rfl | rfl | rfl | rfl | rfl | rfl <;> simp
  simp [hne]

theorem overall_weighted_average_inclusion_witness :
    calcOverall generalWeights (scoreOf exAnalyses)
      = calcOverall (generalWeights.filter (fun kv => kv.1 ≠ "horizonLevel"))
          (scoreOf exAnalyses) :=
  (overall_weighted_average_inclusion generalWeights (scoreOf exAnalyses)).2.2.1 rfl

/-- Claim C4: the overall score (raw and rounded) lies in [0,100], the star
rating lies in [1,5], and the star rating is a non-decreasing function of the
overall score, assuming the active weights are nonnegative and the engine
results satisfy their documented 0..100 ranges. -/
theorem score_range_rating_monotone (a : Analyses) (mode : String)
    (cw : Option (List (String × ℚ)))
    (hw : ∀ kv ∈ activeWeights mode cw, 0 ≤ kv.2)
    (hh : ∀ h, a.histogram = some h →
      (0 ≤ h.score ∧ h.score ≤ 100) ∧ (0 ≤ h.dynamicRangePct ∧ h.dynamicRangePct ≤ 100))
    (hc : ∀ c, a.composition = some c → 0 ≤ c.score ∧ c.score ≤ 100) :
    (0 ≤ overallScoreQ a mode cw ∧ overallScoreQ a mode cw ≤ 100)
    ∧ (0 ≤ (calculateScores a mode cw).overall ∧ (calculateScores a mode cw).overall ≤ 100)
    ∧ (1 ≤ (calculateScores a mode cw).rating ∧ (calculateScores a mode cw).rating ≤ 5)
    ∧ (∀ q r : ℚ, q ≤ r → calculateStarRating q ≤ calculateStarRating r) := by
  have hb := calcOverall_bounds (activeWeights mode cw) (scoreOf a) hw (scoreOf_bounds a hh hc)
  refine ⟨hb, ?_, calculateStarRating_range _, fun q r h => calculateStarRating_mono h⟩
  exact jsRound_in_range hb.1 hb.2

theorem score_range_rating_monotone_witness :
    (0 ≤ overallScoreQ exAnalyses "general" none
      ∧ overallScoreQ exAnalyses "general" none ≤ 100)
    ∧ (0 ≤ (calculateScores exAnalyses "general" none).overall
      ∧ (calculateScores exAnalyses "general" none).overall ≤ 100)
    ∧ (1 ≤ (calculateScores exAnalyses "general" none).rating
      ∧ (calculateScores exAnalyses "general" none).rating ≤ 5)
    ∧ (∀ q r : ℚ, q ≤ r → calculateStarRating q ≤ calculateStarRating r) :=
  score_range_rating_monotone exAnalyses "general" none
    (by intro kv hkv; fin_cases hkv <;> norm_num)
    (by intro h hh; cases hh; exact ⟨by norm_num [exAnalyses], by norm_num [exAnalyses]⟩)
    (by intro c hc; cases hc; norm_num [exAnalyses])

theorem blurCond_iff (a : Analyses) (t : String) (c : ℚ) :
    (match a.sharpness with
     | some s => s.blurType = t && decide (c ≤ s.blurSeverity)
     | none => false) = true
    ↔ (a.sharpness.map SharpnessIn.blurType = some t ∧
        c ≤ (a.sharpness.map SharpnessIn.blurSeverity).getD 0) := by
  cases a.sharpness <;> simp

theorem clipCond_iff (a : Analyses) (g : HistogramIn → ℚ) (c : ℚ) (hc : 0 < c) :
    (match a.histogram with
     | some h => decide (c ≤ g h)
     | none => false) = true
    ↔ c ≤ (a.histogram.map g).getD 0 := by
  cases a.histogram <;> simp
  linarith

theorem checkAutoReject_ne_nil_iff (a : Analyses) :
    checkAutoReject a ≠ [] ↔ autoRejectHolds a := by
  rw [checkAutoReject, autoRejectHolds,
    ← blurCond_iff a "motion" arMotionBlurSeverity,
    ← blurCond_iff a "defocus" arDefocusSeverity,
    ← clipCond_iff a HistogramIn.highlightsClipped arHighlightClip (by norm_num [arHighlightClip]),
    ← clipCond_iff a HistogramIn.shadowsClipped arShadowClip (by norm_num [arShadowClip])]
  split_ifs <;> simp [*]

/-- Claim C5: whenever an auto-reject condition holds (motion or defocus blur
with severity at or above 0.85, or highlight or shadow clipping at or above
25%), the classification category is `reject` regardless of the score; when
none holds the category follows the score thresholds and `autoReject` is
null. -/
theorem autoreject_overrides_category (a : Analyses) (q : ℚ) :
    (autoRejectHolds a → (classifyImage q a).category = "reject")
    ∧ (¬ autoRejectHolds a →
        (classifyImage q a).category = thresholdCategory q
        ∧ (classifyImage q a).autoReject = none) := by
  constructor
  · intro h
    have hne := (checkAutoReject_ne_nil_iff a).mpr h
    simp [classifyImage, hne]
  · intro h
    have hnil : checkAutoReject a = [] := by
      by_contra hne
      exact h ((checkAutoReject_ne_nil_iff a).mp hne)
    simp [classifyImage, hnil]

theorem autoreject_overrides_category_witness :
    (classifyImage 100 exAnalyses).category = "reject" :=
  (autoreject_overrides_category exAnalyses 100).1
    (Or.inl ⟨rfl, by norm_num [exAnalyses, arMotionBlurSeverity]⟩)

theorem activeWeights_general : activeWeights "general" none = generalWeights := rfl

theorem scoreOf_ex_sharpness : scoreOf exAnalyses "sharpness" = some 100 := by
  simp only [scoreOf, if_true]
  norm_num +decide [calcSharpnessSub, exAnalyses, jsOr, jsRound_100, clamp]

theorem scoreOf_ex_exposure : scoreOf exAnalyses "exposure" = some 100 := by
  simp only [scoreOf, if_true]
  norm_num +decide [calcExposureSub, exAnalyses, jsOr]

theorem scoreOf_ex_focus : scoreOf exAnalyses "focusAccuracy" = some 85 := by
  simp only [scoreOf, if_true]
  norm_num +decide [calcFocusAccuracySub, exAnalyses, clamp]

theorem scoreOf_ex_composition : scoreOf exAnalyses "composition" = some 100 := by
  simp only [scoreOf, if_true]
  norm_num +decide [calcCompositionSub, exAnalyses, jsOr]

theorem scoreOf_ex_noise : scoreOf exAnalyses "noise" = some 100 := by
  simp only [scoreOf, if_true]
  norm_num +decide [calcNoiseSub, exAnalyses, clamp]

theorem scoreOf_ex_dynamicRange : scoreOf exAnalyses "dynamicRange" = some 100 := by
  simp only [scoreOf, if_true]
  norm_num +decide [calcDynamicRangeSub, exAnalyses, jsOr]

theorem overallScoreQ_exAnalyses : overallScoreQ exAnalyses "general" none = 391/4 := by
  rw [overallScoreQ, activeWeights_general, calcOverall]
  simp only [generalWeights, List.foldl_cons, List.foldl_nil, scoreOf_ex_sharpness,
    scoreOf_ex_exposure, scoreOf_ex_focus, scoreOf_ex_composition, scoreOf_ex_noise,
    scoreOf_ex_dynamicRange]
  norm_num

/-- Claim C10: auto-reject overrides only the category, never the star
rating: the rating is always the one derived from the overall score, and on a
concrete input with severe motion blur and near-perfect sub-scores the result
simultaneously has category `reject`, a non-null auto-reject reason list, and
rating 5. -/
theorem rating_unaffected_by_autoreject :
    (∀ (a : Analyses) (mode : String) (cw : Option (List (String × ℚ))),
      (calculateScores a mode cw).rating = calculateStarRating (overallScoreQ a mode cw))
    ∧ (calculateScores exAnalyses "general" none).classification.category = "reject"
    ∧ (calculateScores exAnalyses "general" none).classification.autoReject
        = some ["severe-motion-blur"]
    ∧ (calculateScores exAnalyses "general" none).rating = 5 := by
  have har : checkAutoReject exAnalyses = ["severe-motion-blur"] := by
    norm_num +decide [checkAutoReject, exAnalyses, arMotionBlurSeverity, arDefocusSeverity,
      arHighlightClip, arShadowClip]
  refine ⟨fun a mode cw => rfl, ?_, ?_, ?_⟩
  · show (classifyImage (overallScoreQ exAnalyses "general" none) exAnalyses).category = _
    simp [classifyImage, har]
  · show (classifyImage (overallScoreQ exAnalyses "general" none) exAnalyses).autoReject = _
    simp [classifyImage, har]
  · show calculateStarRating (overallScoreQ exAnalyses "general" none) = 5
    rw [overallScoreQ_exAnalyses]
    norm_num [calculateStarRating, thresholdSelect]

theorem round2_mono {q r : ℚ} (h : q ≤ r) : round2 q ≤ round2 r := by
  rw [round2, round2]
  have := jsRound_mono (mul_le_mul_of_nonneg_right h (by norm_num : (0:ℚ) ≤ 100))
  have hc : (jsRound (q * 100) : ℚ) ≤ (jsRound (r * 100) : ℚ) := by exact_mod_cast this
  linarith

theorem round2_0 : round2 0 = 0 := by
  rw [round2, show (0:ℚ) * 100 = 0 by ring, jsRound_0]
  norm_num

theorem round2_1 : round2 1 = 1 := by
  rw [round2, show (1:ℚ) * 100 = 100 by ring, jsRound_100]
  norm_num

/-- Claim C9: the keeper probability equals the unrounded overall score over
100 minus 0.15 per high-severity issue and 0.05 per medium-severity issue,
clamped to [0,1] and rounded to two decimals (the source rounds first and
then clamps, which coincides because two-decimal rounding is monotone and
fixes 0 and 1); in particular it always lies in [0,1]. -/
theorem keeper_probability_spec (score : ℚ) (issues : List Issue) :
    calculateKeeperProbability score issues
      = round2 (clamp 0 1 (score / 100
          - ((issues.filter (fun i => i.severity = "high")).length : ℚ) * (3/20)
          - ((issues.filter (fun i => i.severity = "medium")).length : ℚ) * (1/20)))
    ∧ 0 ≤ calculateKeeperProbability score issues
    ∧ calculateKeeperProbability score issues ≤ 1 := by
  have hkp : calculateKeeperProbability score issues
      = clamp 0 1 (round2 (score / 100
          - ((issues.filter (fun i => i.severity = "high")).length : ℚ) * (3/20)
          - ((issues.filter (fun i => i.severity = "medium")).length : ℚ) * (1/20))) := by
    rw [calculateKeeperProbability, round2]
  set p : ℚ := score / 100
      - ((issues.filter (fun i => i.severity = "high")).length : ℚ) * (3/20)
      - ((issues.filter (fun i => i.severity = "medium")).length : ℚ) * (1/20) with hp
  have key : clamp 0 1 (round2 p) = round2 (clamp 0 1 p) := by
    rcases le_or_lt p 0 with h0 | h0
    · have h1 : round2 p ≤ 0 := by
        have := round2_mono h0
        rw [round2_0] at this
        exact this
      have hcl : clamp 0 1 p = 0 := by
        rw [clamp, min_eq_right (by linarith : p ≤ 1), max_eq_left (by linarith)]
      rw [hcl, round2_0, clamp, min_eq_right (by linarith : round2 p ≤ 1),
        max_eq_left (by linarith)]
    · rcases le_or_lt 1 p with h1 | h1
      · have h2 : 1 ≤ round2 p := by
          have := round2_mono h1
          rw [round2_1] at this
          exact this
        have hcl : clamp 0 1 p = 1 := by
          rw [clamp, min_eq_left h1, max_eq_right (by norm_num)]
        rw [hcl, round2_1, clamp, min_eq_left h2, max_eq_right (by linarith)]
      · have h2 : 0 ≤ round2 p := by
          have := round2_mono (le_of_lt h0)
          rw [round2_0] at this
          exact this
        have h3 : round2 p ≤ 1 := by
          have := round2_mono (le_of_lt h1)
          rw [round2_1] at this
          exact this
        have hcl : clamp 0 1 p = p := by
          rw [clamp, min_eq_right (le_of_lt h1), max_eq_right (le_of_lt h0)]
        rw [hcl, clamp, min_eq_right h3, max_eq_right h2]
  refine ⟨by rw [hkp, key], ?_, ?_⟩
  · rw [hkp]
    exact le_clamp _ _ _
  · rw [hkp]
    exact clamp_le _ (by norm_num)

theorem blurPenalty_none (score sev : ℚ) : blurPenalty score ⟨"none", sev⟩ = score := by
  rw [blurPenalty]
  simp +decide

theorem centerBonus_sub (x c : ℚ) (fp : String) :
    centerBonus (x - c) fp = centerBonus x fp - c := by
  rw [centerBonus, centerBonus]
  split_ifs <;> ring

/-- Claim C7: for fixed edge statistics, Laplacian variance, and focus plane,
the sharpness score is reduced by a blur penalty (`(severity-0.6)*25` for
motion, `(severity-0.6)*20` for defocus) exactly when the blur type is motion
or defocus with severity strictly above 0.6; blur type `soft` never changes
the score, i.e. the final clamped score with type `soft` (any severity)
equals the score with type `none`. -/
theorem soft_blur_carries_no_penalty :
    (∀ (v : ℚ) (e : EdgeIn) (fp : String) (sev sev' : ℚ),
      calculateSharpnessScore v ⟨"soft", sev⟩ e fp
        = calculateSharpnessScore v ⟨"none", sev'⟩ e fp)
    ∧ (∀ (v : ℚ) (e : EdgeIn) (fp : String) (b : BlurIn),
        ¬(b.type = "motion" ∧ 3/5 < b.severity) →
        ¬(b.type = "defocus" ∧ 3/5 < b.severity) →
        rawSharpnessScore v b e fp = rawSharpnessScore v ⟨"none", b.severity⟩ e fp)
    ∧ (∀ (v : ℚ) (e : EdgeIn) (fp : String) (b : BlurIn),
        b.type = "motion" → 3/5 < b.severity →
        rawSharpnessScore v b e fp
          = rawSharpnessScore v ⟨"none", b.severity⟩ e fp - (b.severity - 3/5) * 25)
    ∧ (∀ (v : ℚ) (e : EdgeIn) (fp : String) (b : BlurIn),
        b.type = "defocus" → 3/5 < b.severity →
        rawSharpnessScore v b e fp
          = rawSharpnessScore v ⟨"none", b.severity⟩ e fp - (b.severity - 3/5) * 20) := by
  have hpen : ∀ (s : ℚ) (b : BlurIn),
      ¬(b.type = "motion" ∧ 3/5 < b.severity) →
      ¬(b.type = "defocus" ∧ 3/5 < b.severity) →
      blurPenalty s b = s := by
    intro s b h1 h2
    rw [blurPenalty, if_neg h1, if_neg h2]
  refine ⟨?_, ?_, ?_, ?_⟩
  · intro v e fp sev sev'
    rw [calculateSharpnessScore, calculateSharpnessScore, rawSharpnessScore,
      rawSharpnessScore, hpen _ _ (by simp +decide) (by simp +decide), blurPenalty_none]
  · intro v e fp b h1 h2
    rw [rawSharpnessScore, rawSharpnessScore, hpen _ _ h1 h2, blurPenalty_none]
  · intro v e fp b hb hs
    have hc : b.type = "motion" ∧ 3/5 < b.severity := ⟨hb, hs⟩
    rw [rawSharpnessScore, rawSharpnessScore, blurPenalty_none, blurPenalty, if_pos hc,
      centerBonus_sub]
  · intro v e fp b hb hs
    have hc : b.type = "defocus" ∧ 3/5 < b.severity := ⟨hb, hs⟩
    have hnm : ¬(b.type = "motion" ∧ 3/5 < b.severity) := by
      intro h
      rw [hb] at h
      exact absurd h.1 (by decide)
    rw [rawSharpnessScore, rawSharpnessScore, blurPenalty_none, blurPenalty, if_neg hnm,
      if_pos hc, centerBonus_sub]

theorem soft_blur_carries_no_penalty_witness :
    rawSharpnessScore 0 ⟨"motion", 4/5⟩ ⟨0, 0⟩ "center"
      = rawSharpnessScore 0 ⟨"none", 4/5⟩ ⟨0, 0⟩ "center" - (4/5 - 3/5) * 25 :=
  soft_blur_carries_no_penalty.2.2.1 0 ⟨0, 0⟩ "center" ⟨"motion", 4/5⟩ rfl (by norm_num)

end Classify


namespace Classify

theorem interior_card (w h : ℕ) : (interior w h).card = (w - 2) * (h - 2) := by
  rw [interior, Finset.card_product, Nat.card_Ico, Nat.card_Ico,
    show w - 1 - 1 = w - 2 by omega, show h - 1 - 1 = h - 2 by omega]

theorem mem_interior {w h : ℕ} {p : ℕ × ℕ} (hp : p ∈ interior w h) :
    1 ≤ p.1 ∧ p.1 + 1 ≤ w - 1 ∧ 1 ≤ p.2 ∧ p.2 + 1 ≤ h - 1 := by
  rw [interior, Finset.mem_product, Finset.mem_Ico, Finset.mem_Ico] at hp
  omega

theorem lap_uniform {f : Gray} {w h : ℕ} {v : ℤ} (hw : 3 ≤ w) (hh : 3 ≤ h)
    (hu : ∀ x < w, ∀ y < h, f x y = v) {p : ℕ × ℕ} (hp : p ∈ interior w h) :
    lap f p.1 p.2 = 0 := by
  obtain ⟨h1, h2, h3, h4⟩ := mem_interior hp
  rw [lap, hu p.1 (by omega) (p.2 - 1) (by omega), hu (p.1 - 1) (by omega) p.2 (by omega),
    hu p.1 (by omega) p.2 (by omega), hu (p.1 + 1) (by omega) p.2 (by omega),
    hu p.1 (by omega) (p.2 + 1) (by omega)]
  ring

theorem calculateLaplacianVariance_uniform {f : Gray} {w h : ℕ} {v : ℤ}
    (hw : 3 ≤ w) (hh : 3 ≤ h) (hu : ∀ x < w, ∀ y < h, f x y = v) :
    calculateLaplacianVariance f w h = some 0 := by
  rw [calculateLaplacianVariance]
  have hcard : (interior w h).card ≠ 0 := by
    rw [interior_card]
    have : 1 ≤ w - 2 := by omega
    have : 1 ≤ h - 2 := by omega
    positivity
  have hz : ∀ p ∈ interior w h, (|lap f p.1 p.2| : ℚ) = 0 := by
    intro p hp
    rw [lap_uniform hw hh hu hp]
    norm_num
  have hs1 : (∑ p ∈ interior w h, (|lap f p.1 p.2| : ℚ)) = 0 :=
    Finset.sum_eq_zero hz
  have hs2 : (∑ p ∈ interior w h, (|lap f p.1 p.2| : ℚ)^2) = 0 :=
    Finset.sum_eq_zero (fun p hp => by rw [hz p hp]; norm_num)
  rw [if_neg hcard, hs1, hs2]
  norm_num

end Classify

namespace Classify

theorem avgEdgeStrength_uniform {f : Gray} {w h : ℕ} {v : ℤ}
    (hw : 3 ≤ w) (hh : 3 ≤ h) (hu : ∀ x < w, ∀ y < h, f x y = v) :
    avgEdgeStrength f w h = some 0 := by
  rw [avgEdgeStrength]
  have hcard : (interior w h).card ≠ 0 := by
    rw [interior_card]
    have : 1 ≤ w - 2 := by omega
    have : 1 ≤ h - 2 := by omega
    positivity
  have hz : ∀ p ∈ interior w h,
      Real.sqrt ((sobelGx f p.1 p.2 : ℝ)^2 + (sobelGy f p.1 p.2 : ℝ)^2) = 0 := by
    intro p hp
    obtain ⟨h1, h2, h3, h4⟩ := mem_interior hp
    have hgx : sobelGx f p.1 p.2 = 0 := by
      rw [sobelGx, hu (p.1 - 1) (by omega) (p.2 - 1) (by omega),
        hu (p.1 + 1) (by omega) (p.2 - 1) (by omega),
        hu (p.1 - 1) (by omega) p.2 (by omega), hu (p.1 + 1) (by omega) p.2 (by omega),
        hu (p.1 - 1) (by omega) (p.2 + 1) (by omega),
        hu (p.1 + 1) (by omega) (p.2 + 1) (by omega)]
      ring
    have hgy : sobelGy f p.1 p.2 = 0 := by
      rw [sobelGy, hu (p.1 - 1) (by omega) (p.2 - 1) (by omega),
        hu p.1 (by omega) (p.2 - 1) (by omega), hu (p.1 + 1) (by omega) (p.2 - 1) (by omega),
        hu (p.1 - 1) (by omega) (p.2 + 1) (by omega), hu p.1 (by omega) (p.2 + 1) (by omega),
        hu (p.1 + 1) (by omega) (p.2 + 1) (by omega)]
      ring
    rw [hgx, hgy]
    norm_num
  rw [if_neg hcard, Finset.sum_eq_zero hz]
  norm_num

theorem analyzeSymmetry_uniform {f : Gray} {w h : ℕ} {v : ℤ}
    (hw : 3 ≤ w) (hh : 3 ≤ h) (hu : ∀ x < w, ∀ y < h, f x y = v) :
    (analyzeSymmetry f w h).overall = some 100
    ∧ (analyzeSymmetry f w h).horizontal = some 100
    ∧ (analyzeSymmetry f w h).vertical = some 100 := by
  have hhd : (∑ p ∈ Finset.range ((w + 1) / 2) ×ˢ Finset.range h,
      (|f p.1 p.2 - f (w - 1 - p.1) p.2| : ℚ)) = 0 := by
    apply Finset.sum_eq_zero
    intro p hp
    rw [Finset.mem_product, Finset.mem_range, Finset.mem_range] at hp
    rw [hu p.1 (by omega) p.2 hp.2, hu (w - 1 - p.1) (by omega) p.2 hp.2]
    norm_num
  have hvd : (∑ p ∈ Finset.range w ×ˢ Finset.range ((h + 1) / 2),
      (|f p.1 p.2 - f p.1 (h - 1 - p.2)| : ℚ)) = 0 := by
    apply Finset.sum_eq_zero
    intro p hp
    rw [Finset.mem_product, Finset.mem_range, Finset.mem_range] at hp
    rw [hu p.1 hp.1 p.2 (by omega), hu p.1 hp.1 (h - 1 - p.2) (by omega)]
    norm_num
  have hden1 : (((((w + 1) / 2) * h : ℕ) : ℚ) * 255) ≠ 0 := by
    have : 1 ≤ (w + 1) / 2 * h := by
      have h1 : 1 ≤ (w + 1) / 2 := by omega
      have h2 : 1 ≤ h := by omega
      exact Nat.one_le_iff_ne_zero.mpr (by positivity)
    push_cast
    have : (1 : ℚ) ≤ ((w + 1) / 2 * h : ℕ) := by exact_mod_cast this
    push_cast at this
    nlinarith
  have hden2 : (((w * ((h + 1) / 2) : ℕ) : ℚ) * 255) ≠ 0 := by
    have : 1 ≤ w * ((h + 1) / 2) := by
      have h1 : 1 ≤ (h + 1) / 2 := by omega
      have h2 : 1 ≤ w := by omega
      exact Nat.one_le_iff_ne_zero.mpr (by positivity)
    have : (1 : ℚ) ≤ ((w * ((h + 1) / 2) : ℕ) : ℚ) := by exact_mod_cast this
    nlinarith
  rw [analyzeSymmetry]
  simp only [hhd, hvd, jsDiv, if_neg hden1, if_neg hden2, zero_div, Option.map_some]
  norm_num [jsRound_100]

end Classify

namespace Classify

theorem rectSum_const {f : Gray} {w h : ℕ} {v : ℤ} (hu : ∀ x < w, ∀ y < h, f x y = v)
    (x1 y1 x2 y2 : ℕ) (hx : x2 ≤ w) (hy : y2 ≤ h) :
    rectSum f x1 y1 x2 y2 = (((x2 - x1) * (y2 - y1) : ℕ) : ℚ) * v := by
  rw [rectSum]
  have : ∀ p ∈ Finset.Ico x1 x2 ×ˢ Finset.Ico y1 y2, (f p.1 p.2 : ℚ) = (v : ℚ) := by
    intro p hp
    rw [Finset.mem_product, Finset.mem_Ico, Finset.mem_Ico] at hp
    rw [hu p.1 (by omega) p.2 (by omega)]
  rw [Finset.sum_congr rfl this, Finset.sum_const, Finset.card_product, Nat.card_Ico,
    Nat.card_Ico, nsmul_eq_mul]

theorem calculateQuadrantWeight_uniform {f : Gray} {w h : ℕ} {v : ℤ}
    (hu : ∀ x < w, ∀ y < h, f x y = v) (x1 y1 x2 y2 : ℕ)
    (hx1 : x1 < x2) (hy1 : y1 < y2) (hx : x2 ≤ w) (hy : y2 ≤ h) :
    calculateQuadrantWeight f x1 y1 x2 y2 = v := by
  rw [calculateQuadrantWeight]
  have hn : (x2 - x1) * (y2 - y1) ≠ 0 := by
    have : 1 ≤ x2 - x1 := by omega
    have : 1 ≤ y2 - y1 := by omega
    positivity
  simp only [if_neg hn]
  rw [rectSum_const hu x1 y1 x2 y2 hx hy, mul_comm]
  exact mul_div_cancel_right₀ _ (by exact_mod_cast hn)

theorem analyzeVisualBalance_uniform {f : Gray} {w h : ℕ} {v : ℤ}
    (hw : 3 ≤ w) (hh : 3 ≤ h) (hv : 1 ≤ v) (hu : ∀ x < w, ∀ y < h, f x y = v) :
    (analyzeVisualBalance f w h).type = "symmetrical" := by
  rw [analyzeVisualBalance]
  have q1 := calculateQuadrantWeight_uniform hu 0 0 (w / 2) (h / 2)
    (by omega) (by omega) (by omega) (by omega)
  have q2 := calculateQuadrantWeight_uniform hu (w / 2) 0 w (h / 2)
    (by omega) (by omega) (by omega) (by omega)
  have q3 := calculateQuadrantWeight_uniform hu 0 (h / 2) (w / 2) h
    (by omega) (by omega) (by omega) (by omega)
  have q4 := calculateQuadrantWeight_uniform hu (w / 2) (h / 2) w h
    (by omega) (by omega) (by omega) (by omega)
  simp only [q1, q2, q3, q4]
  have hsum : ((v : ℚ) + v) + ((v : ℚ) + v) ≠ 0 := by
    have : (1 : ℚ) ≤ (v : ℚ) := by exact_mod_cast hv
    nlinarith
  simp only [jsDiv, sub_self, abs_zero, if_neg hsum, zero_div, Option.map_some]
  norm_num [optGt]

end Classify

namespace Classify

theorem blockBest_uniform {f : Gray} {w h : ℕ} {v : ℤ}
    (hu : ∀ x < w, ∀ y < h, f x y = v) (bx bY : ℕ) :
    blockBest f w h bx bY = (0, bx, bY) := by
  rw [blockBest]
  have hy : ∀ y ∈ List.range' bY (min (bY + 30) (h - 1) - bY), y + 1 ≤ h - 1 := by
    intro y hy
    rw [List.mem_range'_1] at hy
    omega
  have hx : ∀ x ∈ List.range' bx (min (bx + 30) (w - 1) - bx), x + 1 ≤ w - 1 := by
    intro x hx
    rw [List.mem_range'_1] at hx
    omega
  have inner : ∀ (y : ℕ), y + 1 ≤ h - 1 →
      ∀ (xs : List ℕ), (∀ x ∈ xs, x + 1 ≤ w - 1) →
      ∀ acc : ℤ × ℕ × ℕ, 0 ≤ acc.1 →
      xs.foldl (fun acc x =>
        let c := |f x y - f (x + 1) y| + |f x y - f x (y + 1)|
        if acc.1 < c then (c, x, y) else acc) acc = acc := by
    intro y hyb xs
    induction xs with
    | nil => intro _ acc _; rfl
    | cons x t ih =>
      intro hxs acc hacc
      have hxb := hxs x (List.mem_cons_self x t)
      have hc : |f x y - f (x + 1) y| + |f x y - f x (y + 1)| = 0 := by
        rw [hu x (by omega) y (by omega), hu (x + 1) (by omega) y (by omega),
          hu x (by omega) (y + 1) (by omega)]
        norm_num
      rw [List.foldl_cons]
      simp only [hc]
      rw [if_neg (by omega)]
      exact ih (fun z hz => hxs z (List.mem_cons_of_mem x hz)) acc hacc
  have houter : ∀ (ys : List ℕ), (∀ y ∈ ys, y + 1 ≤ h - 1) →
      ∀ acc : ℤ × ℕ × ℕ, 0 ≤ acc.1 →
      ys.foldl (fun acc y =>
        (List.range' bx (min (bx + 30) (w - 1) - bx)).foldl (fun acc x =>
          let c := |f x y - f (x + 1) y| + |f x y - f x (y + 1)|
          if acc.1 < c then (c, x, y) else acc) acc) acc = acc := by
    intro ys
    induction ys with
    | nil => intro _ acc _; rfl
    | cons y t ih =>
      intro hys acc hacc
      rw [List.foldl_cons, inner y (hys y (List.mem_cons_self y t)) _ hx acc hacc]
      exact ih (fun z hz => hys z (List.mem_cons_of_mem y hz)) acc hacc
  exact houter _ hy (0, bx, bY) le_rfl

theorem findInterestPoints_uniform {f : Gray} {w h : ℕ} {v : ℤ}
    (hu : ∀ x < w, ∀ y < h, f x y = v) :
    findInterestPoints f w h = [] := by
  rw [findInterestPoints]
  have hpts : ((List.range ((h + 29) / 30)).map (fun i => i * 30)).flatMap
      (fun bY => ((List.range ((w + 29) / 30)).map (fun i => i * 30)).flatMap
        (fun bx =>
          let b := blockBest f w h bx bY
          if 50 < b.1 then [⟨b.2.1, b.2.2, b.1⟩] else [])) = ([] : List IPoint) := by
    rw [List.eq_nil_iff_forall_not_mem]
    intro p hp
    rw [List.mem_flatMap] at hp
    obtain ⟨bY, _, hp⟩ := hp
    rw [List.mem_flatMap] at hp
    obtain ⟨bx, _, hp⟩ := hp
    simp only [blockBest_uniform hu] at hp
    rw [if_neg (by norm_num)] at hp
    exact absurd hp (List.not_mem_nil p)
  simp only [hpts, List.mergeSort_nil, List.take_nil]

theorem ruleOfThirdsAlignment_uniform {f : Gray} {w h : ℕ} {v : ℤ}
    (hu : ∀ x < w, ∀ y < h, f x y = v) :
    ruleOfThirdsAlignment f w h = 0 := by
  rw [ruleOfThirdsAlignment, minDistSq, findInterestPoints_uniform hu]
  rfl

end Classify

namespace Classify

/-- Claim C8 (amended): for every buffer of width and height at least 3 whose
pixels all equal a common nonzero value, the Laplacian variance is 0, the
average Sobel edge strength is 0, the overall symmetry is 100, the
visual-balance type is `symmetrical`, and no interest point survives the
contrast threshold so the rule-of-thirds alignment is 0.  (For the all-zero
uniform buffer the balance computation divides 0/0 and the NaN-false
comparisons classify it `asymmetrical` instead; see the counterexample.) -/
theorem uniform_buffer_neutral (f : Gray) (w h : ℕ) (v : ℤ)
    (hw : 3 ≤ w) (hh : 3 ≤ h) (hv : 1 ≤ v) (hu : ∀ x < w, ∀ y < h, f x y = v) :
    calculateLaplacianVariance f w h = some 0
    ∧ avgEdgeStrength f w h = some 0
    ∧ (analyzeSymmetry f w h).overall = some 100
    ∧ (analyzeVisualBalance f w h).type = "symmetrical"
    ∧ findInterestPoints f w h = []
    ∧ ruleOfThirdsAlignment f w h = 0 :=
  ⟨calculateLaplacianVariance_uniform hw hh hu,
   avgEdgeStrength_uniform hw hh hu,
   (analyzeSymmetry_uniform hw hh hu).1,
   analyzeVisualBalance_uniform hw hh hv hu,
   findInterestPoints_uniform hu,
   ruleOfThirdsAlignment_uniform hu⟩

theorem uniform_buffer_neutral_witness :
    calculateLaplacianVariance (uniformImg 5) 6 6 = some 0
    ∧ avgEdgeStrength (uniformImg 5) 6 6 = some 0
    ∧ (analyzeSymmetry (uniformImg 5) 6 6).overall = some 100
    ∧ (analyzeVisualBalance (uniformImg 5) 6 6).type = "symmetrical"
    ∧ findInterestPoints (uniformImg 5) 6 6 = []
    ∧ ruleOfThirdsAlignment (uniformImg 5) 6 6 = 0 :=
  uniform_buffer_neutral (uniformImg 5) 6 6 5 (by decide) (by decide) (by decide)
    (by decide)

theorem uniform_zero_buffer_not_symmetrical :
    (∀ x < 6, ∀ y < 6, uniformImg 0 x y = 0)
    ∧ (analyzeVisualBalance (uniformImg 0) 6 6).type = "asymmetrical" := by
  refine ⟨by decide, ?_⟩
  rw [analyzeVisualBalance]
  have hq : ∀ x1 y1 x2 y2 : ℕ, calculateQuadrantWeight (uniformImg 0) x1 y1 x2 y2 = 0 := by
    intro x1 y1 x2 y2
    rw [calculateQuadrantWeight]
    split_ifs with hn
    · rfl
    · rw [rectSum]
      simp [uniformImg]
  simp only [hq]
  norm_num [jsDiv, optGt, optLt]

end Classify

namespace Classify

theorem rectSum_nonneg {f : Gray} {w h : ℕ}
    (hnn : ∀ x < w, ∀ y < h, 0 ≤ f x y) (x1 y1 x2 y2 : ℕ) (hx : x2 ≤ w) (hy : y2 ≤ h) :
    0 ≤ rectSum f x1 y1 x2 y2 := by
  rw [rectSum]
  apply Finset.sum_nonneg
  intro p hp
  rw [Finset.mem_product, Finset.mem_Ico, Finset.mem_Ico] at hp
  exact_mod_cast hnn p.1 (by omega) p.2 (by omega)

theorem calculateQuadrantWeight_nonneg {f : Gray} {w h : ℕ}
    (hnn : ∀ x < w, ∀ y < h, 0 ≤ f x y) (x1 y1 x2 y2 : ℕ) (hx : x2 ≤ w) (hy : y2 ≤ h) :
    0 ≤ calculateQuadrantWeight f x1 y1 x2 y2 := by
  rw [calculateQuadrantWeight]
  split_ifs with hn
  · exact le_refl 0
  · exact div_nonneg (rectSum_nonneg hnn x1 y1 x2 y2 hx hy) (by positivity)

theorem calculateQuadrantWeight_pos {f : Gray} {w h : ℕ}
    (hnn : ∀ x < w, ∀ y < h, 0 ≤ f x y) (x1 y1 x2 y2 x0 y0 : ℕ)
    (hx : x2 ≤ w) (hy : y2 ≤ h)
    (hm : x1 ≤ x0 ∧ x0 < x2 ∧ y1 ≤ y0 ∧ y0 < y2) (hp : 0 < f x0 y0) :
    0 < calculateQuadrantWeight f x1 y1 x2 y2 := by
  rw [calculateQuadrantWeight]
  have hn : (x2 - x1) * (y2 - y1) ≠ 0 := by
    have : 1 ≤ x2 - x1 := by omega
    have : 1 ≤ y2 - y1 := by omega
    positivity
  rw [if_neg hn]
  apply div_pos
  · rw [rectSum]
    apply Finset.sum_pos'
    · intro p hpm
      rw [Finset.mem_product, Finset.mem_Ico, Finset.mem_Ico] at hpm
      exact_mod_cast hnn p.1 (by omega) p.2 (by omega)
    · refine ⟨(x0, y0), ?_, by exact_mod_cast hp⟩
      rw [Finset.mem_product, Finset.mem_Ico, Finset.mem_Ico]
      omega
  · have : 1 ≤ (x2 - x1) * (y2 - y1) := Nat.one_le_iff_ne_zero.mpr hn
    exact_mod_cast this

/-- Claim C1 (amended): the cited unguarded divisions are finite away from
the degenerate cases.  For every well-formed buffer with width and height at
least 3, nonnegative pixel values, and at least one strictly positive pixel,
the Laplacian variance, the visual-balance quotients, and the center-of-mass
coordinates are all finite (`some`).  (The all-zero well-formed buffer makes
the visual-balance and weight-distribution divisions 0/0, i.e. NaN; see the
counterexample.) -/
theorem unguarded_divisions_finite_off_degenerate (f : Gray) (w h : ℕ)
    (hw : 3 ≤ w) (hh : 3 ≤ h)
    (hnn : ∀ x < w, ∀ y < h, 0 ≤ f x y)
    (hpos : ∃ p : ℕ × ℕ, p.1 < w ∧ p.2 < h ∧ 0 < f p.1 p.2) :
    (calculateLaplacianVariance f w h).isSome
    ∧ (analyzeVisualBalance f w h).horizontal.isSome
    ∧ (analyzeVisualBalance f w h).vertical.isSome
    ∧ (analyzeVisualBalance f w h).overall.isSome
    ∧ (analyzeWeightDistribution f w h).centerX.isSome
    ∧ (analyzeWeightDistribution f w h).centerY.isSome := by
  obtain ⟨p0, hp0w, hp0h, hp0⟩ := hpos
  have hlap : (calculateLaplacianVariance f w h).isSome := by
    rw [calculateLaplacianVariance]
    have hcard : (interior w h).card ≠ 0 := by
      rw [interior_card]
      have : 1 ≤ w - 2 := by omega
      have : 1 ≤ h - 2 := by omega
      positivity
    rw [if_neg hcard]
    rfl
  have hq1 := calculateQuadrantWeight_nonneg hnn 0 0 (w / 2) (h / 2) (by omega) (by omega)
  have hq2 := calculateQuadrantWeight_nonneg hnn (w / 2) 0 w (h / 2) (by omega) (by omega)
  have hq3 := calculateQuadrantWeight_nonneg hnn 0 (h / 2) (w / 2) h (by omega) (by omega)
  have hq4 := calculateQuadrantWeight_nonneg hnn (w / 2) (h / 2) w h (by omega) (by omega)
  have hqsum : 0 < calculateQuadrantWeight f 0 0 (w / 2) (h / 2)
      + calculateQuadrantWeight f (w / 2) 0 w (h / 2)
      + calculateQuadrantWeight f 0 (h / 2) (w / 2) h
      + calculateQuadrantWeight f (w / 2) (h / 2) w h := by
    rcases Nat.lt_or_ge p0.1 (w / 2) with hx | hx <;>
      rcases Nat.lt_or_ge p0.2 (h / 2) with hy | hy
    · have := calculateQuadrantWeight_pos hnn 0 0 (w / 2) (h / 2) p0.1 p0.2
        (by omega) (by omega) (by omega) hp0
      linarith
    · have := calculateQuadrantWeight_pos hnn 0 (h / 2) (w / 2) h p0.1 p0.2
        (by omega) (by omega) (by omega) hp0
      linarith
    · have := calculateQuadrantWeight_pos hnn (w / 2) 0 w (h / 2) p0.1 p0.2
        (by omega) (by omega) (by omega) hp0
      linarith
    · have := calculateQuadrantWeight_pos hnn (w / 2) (h / 2) w h p0.1 p0.2
        (by omega) (by omega) (by omega) hp0
      linarith
  have hbal : (analyzeVisualBalance f w h).horizontal.isSome
      ∧ (analyzeVisualBalance f w h).vertical.isSome
      ∧ (analyzeVisualBalance f w h).overall.isSome := by
    rw [analyzeVisualBalance]
    have hlr : calculateQuadrantWeight f 0 0 (w / 2) (h / 2)
        + calculateQuadrantWeight f 0 (h / 2) (w / 2) h
        + (calculateQuadrantWeight f (w / 2) 0 w (h / 2)
          + calculateQuadrantWeight f (w / 2) (h / 2) w h) ≠ 0 := by
      intro hz
      rw [show calculateQuadrantWeight f 0 0 (w / 2) (h / 2)
        + calculateQuadrantWeight f 0 (h / 2) (w / 2) h
        + (calculateQuadrantWeight f (w / 2) 0 w (h / 2)
          + calculateQuadrantWeight f (w / 2) (h / 2) w h)
        = calculateQuadrantWeight f 0 0 (w / 2) (h / 2)
        + calculateQuadrantWeight f (w / 2) 0 w (h / 2)
        + calculateQuadrantWeight f 0 (h / 2) (w / 2) h
        + calculateQuadrantWeight f (w / 2) (h / 2) w h by ring] at hz
      linarith
    have htb : calculateQuadrantWeight f 0 0 (w / 2) (h / 2)
        + calculateQuadrantWeight f (w / 2) 0 w (h / 2)
        + (calculateQuadrantWeight f 0 (h / 2) (w / 2) h
          + calculateQuadrantWeight f (w / 2) (h / 2) w h) ≠ 0 := by
      intro hz
      rw [show calculateQuadrantWeight f 0 0 (w / 2) (h / 2)
        + calculateQuadrantWeight f (w / 2) 0 w (h / 2)
        + (calculateQuadrantWeight f 0 (h / 2) (w / 2) h
          + calculateQuadrantWeight f (w / 2) (h / 2) w h)
        = calculateQuadrantWeight f 0 0 (w / 2) (h / 2)
        + calculateQuadrantWeight f (w / 2) 0 w (h / 2)
        + calculateQuadrantWeight f 0 (h / 2) (w / 2) h
        + calculateQuadrantWeight f (w / 2) (h / 2) w h by ring] at hz
      linarith
    simp only [jsDiv, if_neg hlr, if_neg htb, Option.map_some]
    exact ⟨rfl, rfl, rfl⟩
  have hwd : (analyzeWeightDistribution f w h).centerX.isSome
      ∧ (analyzeWeightDistribution f w h).centerY.isSome := by
    rw [analyzeWeightDistribution]
    have htw : (0 : ℚ) < ∑ p ∈ Finset.range w ×ˢ Finset.range h, (f p.1 p.2 : ℚ) := by
      apply Finset.sum_pos'
      · intro p hpm
        rw [Finset.mem_product, Finset.mem_range, Finset.mem_range] at hpm
        exact_mod_cast hnn p.1 hpm.1 p.2 hpm.2
      · refine ⟨p0, ?_, by exact_mod_cast hp0⟩
        rw [Finset.mem_product, Finset.mem_range, Finset.mem_range]
        exact ⟨hp0w, hp0h⟩
    simp only [jsDiv, if_neg (ne_of_gt htw), Option.map_some]
    exact ⟨rfl, rfl⟩
  exact ⟨hlap, hbal.1, hbal.2.1, hbal.2.2, hwd.1, hwd.2⟩

theorem unguarded_divisions_finite_off_degenerate_witness :
    (calculateLaplacianVariance (uniformImg 1) 4 4).isSome
    ∧ (analyzeVisualBalance (uniformImg 1) 4 4).horizontal.isSome
    ∧ (analyzeVisualBalance (uniformImg 1) 4 4).vertical.isSome
    ∧ (analyzeVisualBalance (uniformImg 1) 4 4).overall.isSome
    ∧ (analyzeWeightDistribution (uniformImg 1) 4 4).centerX.isSome
    ∧ (analyzeWeightDistribution (uniformImg 1) 4 4).centerY.isSome :=
  unguarded_divisions_finite_off_degenerate (uniformImg 1) 4 4 (by decide) (by decide)
    (by decide) ⟨(0, 0), by decide⟩

theorem allzero_buffer_produces_nan :
    (∀ x < 4, ∀ y < 4, uniformImg 0 x y = 0)
    ∧ (analyzeWeightDistribution (uniformImg 0) 4 4).centerX = none
    ∧ (analyzeWeightDistribution (uniformImg 0) 4 4).centerY = none
    ∧ (analyzeVisualBalance (uniformImg 0) 4 4).horizontal = none
    ∧ (analyzeVisualBalance (uniformImg 0) 4 4).overall = none := by
  refine ⟨by decide, ?_, ?_, ?_, ?_⟩
  · rw [analyzeWeightDistribution]
    simp [uniformImg, jsDiv]
  · rw [analyzeWeightDistribution]
    simp [uniformImg, jsDiv]
  · rw [analyzeVisualBalance]
    have hq : ∀ x1 y1 x2 y2 : ℕ, calculateQuadrantWeight (uniformImg 0) x1 y1 x2 y2 = 0 := by
      intro x1 y1 x2 y2
      rw [calculateQuadrantWeight]
      split_ifs with hn
      · rfl
      · rw [rectSum]
        simp [uniformImg]
    simp [hq, jsDiv]
  · rw [analyzeVisualBalance]
    have hq : ∀ x1 y1 x2 y2 : ℕ, calculateQuadrantWeight (uniformImg 0) x1 y1 x2 y2 = 0 := by
      intro x1 y1 x2 y2
      rw [calculateQuadrantWeight]
      split_ifs with hn
      · rfl
      · rw [rectSum]
        simp [uniformImg]
    simp [hq, jsDiv]

end Classify

namespace Classify

theorem luminance_bounds {p : RGBPix}
    (hr : 0 ≤ p.r ∧ p.r ≤ 255) (hg : 0 ≤ p.g ∧ p.g ≤ 255) (hb : 0 ≤ p.b ∧ p.b ≤ 255) :
    0 ≤ luminance p ∧ luminance p ≤ 255 := by
  rw [luminance, jsRound]
  have hr' : (0 : ℚ) ≤ p.r ∧ (p.r : ℚ) ≤ 255 := ⟨by exact_mod_cast hr.1, by exact_mod_cast hr.2⟩
  have hg' : (0 : ℚ) ≤ p.g ∧ (p.g : ℚ) ≤ 255 := ⟨by exact_mod_cast hg.1, by exact_mod_cast hg.2⟩
  have hb' : (0 : ℚ) ≤ p.b ∧ (p.b : ℚ) ≤ 255 := ⟨by exact_mod_cast hb.1, by exact_mod_cast hb.2⟩
  constructor
  · apply Int.le_floor.mpr
    push_cast
    nlinarith [hr'.1, hg'.1, hb'.1]
  · have : ⌊(299/1000 : ℚ) * p.r + (587/1000 : ℚ) * p.g + (114/1000 : ℚ) * p.b + 1/2⌋ < 256 := by
      apply Int.floor_lt.mpr
      push_cast
      nlinarith [hr'.2, hg'.2, hb'.2]
    omega

theorem filter_length_partition (l : List RGBPix)
    (hl : ∀ p ∈ l, 0 ≤ luminance p ∧ luminance p ≤ 255) :
    (∑ i ∈ Finset.range 256,
      ((l.filter (fun p => luminance p = (i : ℤ))).length : ℚ)) = l.length := by
  induction l with
  | nil => simp
  | cons a t ih =>
    have ha := hl a (List.mem_cons_self a t)
    have ht := ih (fun p hp => hl p (List.mem_cons_of_mem a hp))
    have hkey : ∀ i : ℕ,
        (((a :: t).filter (fun p => luminance p = (i : ℤ))).length : ℚ)
        = (if (luminance a).toNat = i then (1 : ℚ) else 0)
          + ((t.filter (fun p => luminance p = (i : ℤ))).length : ℚ) := by
      intro i
      rw [List.filter_cons]
      by_cases hai : luminance a = (i : ℤ)
      · have : (luminance a).toNat = i := by omega
        simp [hai, this]
        ring
      · have : ¬((luminance a).toNat = i) := by omega
        simp [hai, this]
    rw [Finset.sum_congr rfl (fun i _ => hkey i), Finset.sum_add_distrib, ht,
      Finset.sum_ite_eq (Finset.range 256) (luminance a).toNat (fun _ => (1 : ℚ))]
    have hmem : (luminance a).toNat ∈ Finset.range 256 := by
      rw [Finset.mem_range]
      omega
    rw [if_pos hmem]
    push_cast [List.length_cons]
    ring

theorem lumTotalWeight_eq (l : List RGBPix) (hne : l ≠ [])
    (hv : validRGB l) : lumTotalWeight l = 100 := by
  have hl : ∀ p ∈ l, 0 ≤ luminance p ∧ luminance p ≤ 255 := by
    intro p hp
    obtain ⟨hr, hg, hb⟩ := hv p hp
    exact luminance_bounds hr hg hb
  have hn : (l.length : ℚ) ≠ 0 := by
    have : l.length ≠ 0 := fun h => hne (List.length_eq_zero.mp h)
    exact_mod_cast this
  rw [lumTotalWeight]
  have : ∀ i ∈ Finset.range 256, lumHist l i
      = ((l.filter (fun p => luminance p = (i : ℤ))).length : ℚ) / l.length * 100 :=
    fun i _ => rfl
  rw [Finset.sum_congr rfl this]
  rw [show (∑ i ∈ Finset.range 256,
      ((l.filter (fun p => luminance p = (i : ℤ))).length : ℚ) / l.length * 100)
    = (∑ i ∈ Finset.range 256,
      ((l.filter (fun p => luminance p = (i : ℤ))).length : ℚ)) / l.length * 100 by
    rw [Finset.sum_div, Finset.sum_mul]]
  rw [filter_length_partition l hl, div_self hn, one_mul]

/-- Claim C3 (amended): the exposure assessment label is determined by the
luminance-weighted mean brightness via the bands actually realized by the
source: mean < 80 is `underexposed`, 80 <= mean < 100 is `slightly-under`,
100 <= mean <= 160 is `well-exposed`, 160 < mean <= 180 is `slightly-over`,
and mean > 180 (strictly) is `overexposed`.  (At mean exactly 180 the source
returns `slightly-over`, not `overexposed`; see the counterexample.) -/
theorem exposure_assessment_bands (px : List RGBPix) (hne : px ≠ [])
    (hv : validRGB px) :
    ∃ m : ℚ, meanBrightnessOpt px = some m
      ∧ exposureAssessment px = exposureBandOf m := by
  have htw := lumTotalWeight_eq px hne hv
  have hsome : meanBrightnessOpt px = some (lumWeightedSum px / 100) := by
    rw [meanBrightnessOpt, jsDiv, htw]
    norm_num
  refine ⟨lumWeightedSum px / 100, hsome, ?_⟩
  set m := lumWeightedSum px / 100 with hm
  rw [exposureAssessment, exposureBandOf, hsome]
  simp only [optLt, optGt, Bool.and_eq_true, decide_eq_true_eq]
  rcases lt_or_ge m 80 with h1 | h1
  · rw [if_pos h1, if_pos h1]
  · have h1' := not_lt.mpr h1
    rw [if_neg h1', if_neg h1']
    rcases lt_or_ge m 100 with h2 | h2
    · rw [if_neg (by linarith : ¬(180 < m)),
        if_neg (by rintro ⟨hc, _⟩; linarith : ¬(100 ≤ m ∧ m ≤ 160)),
        if_pos h2, if_pos h2]
    · have h2' := not_lt.mpr h2
      rcases le_or_lt m 160 with h3 | h3
      · rw [if_neg (by linarith : ¬(180 < m)),
          if_pos (⟨h2, h3⟩ : 100 ≤ m ∧ m ≤ 160), if_neg h2', if_pos h3]
      · rcases le_or_lt m 180 with h4 | h4
        · rw [if_neg (not_lt.mpr h4),
            if_neg (by rintro ⟨_, hb⟩; linarith : ¬(100 ≤ m ∧ m ≤ 160)),
            if_neg h2', if_neg h2', if_neg (not_le.mpr h3), if_pos h4]
        · rw [if_pos h4, if_neg h2', if_neg (not_le.mpr h3), if_neg (not_le.mpr h4)]

end Classify

namespace Classify

theorem luminance_180 : luminance ⟨180, 180, 180⟩ = 180 := by
  rw [show luminance ⟨180, 180, 180⟩ = jsRound 180 from by rw [luminance]; norm_num]
  exact jsRound_eval (by norm_num) (by norm_num)

theorem lumHist_px180_ne (i : ℕ) (hi : i ≠ 180) : lumHist px180 i = 0 := by
  rw [lumHist, px180, List.filter_cons, List.filter_nil]
  have hne : ¬(luminance ⟨180, 180, 180⟩ = (i : ℤ)) := by
    rw [luminance_180]
    intro hc
    exact hi (by exact_mod_cast hc.symm)
  simp [hne]

theorem lumHist_px180_at : lumHist px180 180 = 100 := by
  rw [lumHist, px180, List.filter_cons, List.filter_nil]
  have he : luminance ⟨180, 180, 180⟩ = ((180 : ℕ) : ℤ) := by
    rw [luminance_180]
    norm_num
  simp [he]

theorem mean_px180 : meanBrightnessOpt px180 = some 180 := by
  have hws : lumWeightedSum px180 = 18000 := by
    rw [lumWeightedSum,
      Finset.sum_eq_single_of_mem 180 (by norm_num [Finset.mem_range])
        (fun i _ hi => by rw [lumHist_px180_ne i hi]; ring),
      lumHist_px180_at]
    norm_num
  have htw : lumTotalWeight px180 = 100 :=
    lumTotalWeight_eq px180 (by simp [px180]) (by
      intro p hp
      simp only [px180, List.mem_singleton] at hp
      subst hp
      norm_num)
  rw [meanBrightnessOpt, hws, htw, jsDiv]
  norm_num

theorem mean_180_labelled_slightly_over :
    meanBrightnessOpt px180 = some 180
    ∧ exposureAssessment px180 = "slightly-over" := by
  refine ⟨mean_px180, ?_⟩
  simp only [exposureAssessment, mean_px180, optLt, optGt]
  norm_num

theorem exposure_assessment_bands_witness :
    ∃ m : ℚ, meanBrightnessOpt px100 = some m
      ∧ exposureAssessment px100 = exposureBandOf m :=
  exposure_assessment_bands px100 (by simp [px100]) (by
    intro p hp
    simp only [px100, List.mem_singleton] at hp
    subst hp
    norm_num)

end Classify

namespace Classify

theorem sqrt_cast_sq (a : ℤ) (ha : 0 ≤ a) :
    Real.sqrt (((a : ℤ) : ℝ)^2 + ((0 : ℤ) : ℝ)^2) = (a : ℝ) := by
  rw [show (((a : ℤ) : ℝ)^2 + ((0 : ℤ) : ℝ)^2) = (a : ℝ)^2 by push_cast; ring]
  exact Real.sqrt_sq (by exact_mod_cast ha)

theorem atanVec_px : atanVec 6 0 = (1, 0) := by
  rw [atanVec, if_neg (by norm_num)]
  rw [sqrt_cast_sq 6 (by norm_num)]
  norm_num [Prod.ext_iff]

theorem atanVec_nx : atanVec (-6) 0 = (-1, 0) := by
  rw [atanVec, if_neg (by norm_num)]
  rw [show ((((-6) : ℤ) : ℝ)^2 + (((0) : ℤ) : ℝ)^2) = (6 : ℝ)^2 by push_cast; ring,
    Real.sqrt_sq (by norm_num)]
  norm_num [Prod.ext_iff]

theorem atanVec_py : atanVec 0 6 = (0, 1) := by
  rw [atanVec, if_neg (by norm_num)]
  rw [show (((0 : ℤ) : ℝ)^2 + (((6) : ℤ) : ℝ)^2) = (6 : ℝ)^2 by push_cast; ring,
    Real.sqrt_sq (by norm_num)]
  norm_num [Prod.ext_iff]

theorem consistency_samplesA : analyzeGradientConsistency imgC2 samplesA = 1 := by
  rw [analyzeGradientConsistency, samplesA]
  simp only [List.map_replicate]
  rw [show sampleGx imgC2 (1, 1) = 6 from by decide,
    show sampleGy imgC2 (1, 1) = 0 from by decide, atanVec_px]
  simp only [List.sum_replicate, nsmul_eq_mul, sampleCount]
  norm_num
  rw [show (400 : ℝ) = 20^2 by norm_num, Real.sqrt_sq (by norm_num)]
  norm_num

end Classify

namespace Classify

theorem consistency_samplesC : analyzeGradientConsistency imgC2 samplesC = 1 := by
  rw [analyzeGradientConsistency, samplesC]
  simp only [List.map_replicate]
  rw [show sampleGx imgC2 (1, 2) = 0 from by decide,
    show sampleGy imgC2 (1, 2) = 6 from by decide, atanVec_py]
  simp only [List.sum_replicate, nsmul_eq_mul, sampleCount]
  norm_num
  rw [show (400 : ℝ) = 20^2 by norm_num, Real.sqrt_sq (by norm_num)]
  norm_num

theorem consistency_samplesB : analyzeGradientConsistency imgC2 samplesB = 0 := by
  rw [analyzeGradientConsistency, samplesB]
  simp only [List.map_append, List.map_replicate, List.sum_append]
  rw [show sampleGx imgC2 (1, 1) = 6 from by decide,
    show sampleGy imgC2 (1, 1) = 0 from by decide,
    show sampleGx imgC2 (2, 2) = -6 from by decide,
    show sampleGy imgC2 (2, 2) = 0 from by decide, atanVec_px, atanVec_nx]
  simp only [List.sum_replicate, nsmul_eq_mul, sampleCount]
  norm_num

end Classify

namespace Classify

theorem interior44 : interior 4 4 = ({(1, 1), (2, 1), (1, 2), (2, 2)} : Finset (ℕ × ℕ)) := by
  decide

theorem lapVar_imgC2 : calculateLaplacianVariance imgC2 4 4 = some 36 := by
  rw [calculateLaplacianVariance, interior44]
  rw [Finset.sum_insert (by decide), Finset.sum_insert (by decide),
    Finset.sum_insert (by decide), Finset.sum_singleton,
    Finset.sum_insert (by decide), Finset.sum_insert (by decide),
    Finset.sum_insert (by decide), Finset.sum_singleton]
  norm_num [lap, imgC2, Prod.ext_iff]

theorem dirGradH_imgC2 : dirGradH imgC2 4 4 = some 3 := by
  rw [dirGradH, interior44]
  rw [Finset.sum_insert (by decide), Finset.sum_insert (by decide),
    Finset.sum_insert (by decide), Finset.sum_singleton]
  norm_num [imgC2, Prod.ext_iff, jsDiv]

theorem dirGradV_imgC2 : dirGradV imgC2 4 4 = some 3 := by
  rw [dirGradV, interior44]
  rw [Finset.sum_insert (by decide), Finset.sum_insert (by decide),
    Finset.sum_insert (by decide), Finset.sum_singleton]
  norm_num [imgC2, Prod.ext_iff, jsDiv]

theorem detectBlurTypeR_imgC2_high :
    (detectBlurTypeR imgC2 4 4 (calculateLaplacianVariance imgC2 4 4) 1).type = "defocus" := by
  rw [detectBlurTypeR]
  simp only [lapVar_imgC2, dirGradH_imgC2, dirGradV_imgC2]
  norm_num [optGt, optLt, jsOr]

theorem detectBlurTypeR_imgC2_low :
    (detectBlurTypeR imgC2 4 4 (calculateLaplacianVariance imgC2 4 4) 0).type = "soft" := by
  rw [detectBlurTypeR]
  simp only [lapVar_imgC2, dirGradH_imgC2, dirGradV_imgC2]
  norm_num [optGt, optLt, jsOr]

end Classify

namespace Classify

/-- Claim C2 (amended): the sharpness engine is deterministic given the
sample-point sequence of the gradient-consistency check — the blur
classification depends on the sampled points only through the consistency
measure `R`, so two runs whose samples yield the same `R` return identical
blur results.  The sampler is unseeded (`Math.random()`), so two runs on the
same buffer can sample different points, obtain different `R`, and return a
different classification; see the counterexample. -/
theorem blur_deterministic_given_samples (f : Gray) (w h : ℕ) (sharp : Option ℚ)
    (s₁ s₂ : List (ℕ × ℕ))
    (hR : analyzeGradientConsistency f s₁ = analyzeGradientConsistency f s₂) :
    detectBlurType f w h sharp s₁ = detectBlurType f w h sharp s₂ := by
  rw [detectBlurType, detectBlurType, hR]

theorem blur_deterministic_given_samples_witness :
    detectBlurType imgC2 4 4 (calculateLaplacianVariance imgC2 4 4) samplesA
      = detectBlurType imgC2 4 4 (calculateLaplacianVariance imgC2 4 4) samplesC :=
  blur_deterministic_given_samples imgC2 4 4 (calculateLaplacianVariance imgC2 4 4)
    samplesA samplesC (consistency_samplesA.trans consistency_samplesC.symm)

theorem gradient_consistency_varies_between_runs :
    validSamples 4 4 samplesA ∧ validSamples 4 4 samplesB
    ∧ analyzeGradientConsistency imgC2 samplesA = 1
    ∧ analyzeGradientConsistency imgC2 samplesB = 0
    ∧ (detectBlurType imgC2 4 4 (calculateLaplacianVariance imgC2 4 4) samplesA).type
        = "defocus"
    ∧ (detectBlurType imgC2 4 4 (calculateLaplacianVariance imgC2 4 4) samplesB).type
        = "soft" := by
  refine ⟨by unfold validSamples; decide, by unfold validSamples; decide,
    consistency_samplesA, consistency_samplesB, ?_, ?_⟩
  · rw [detectBlurType, consistency_samplesA]
    exact detectBlurTypeR_imgC2_high
  · rw [detectBlurType, consistency_samplesB]
    exact detectBlurTypeR_imgC2_low

end Classify
